import Mathlib

/-!
Verification development for the siliconflowProxy request-forwarding engine.

The definitions below are shallow embeddings of the JavaScript source:
  * `src/utils/apiManager.js`  — key selector, busy detector, availability rules
  * `src/db/index.js`         — credential registry, block records, usage log
  * `src/unnamed/part_008`    — outbound-proxy selector (proxyManager)
  * `src/unnamed/part_001`    — the POST /chat/completions request engine

JavaScript values appearing in response bodies are modelled by the inductive
`JVal`; machine time is an abstract millisecond counter (`Nat`); the SQLite
registry is an association list in creation order; asynchronous client
disconnection is an environment-supplied schedule sampled at exactly the
checkpoints where the source calls `checkClientDisconnected()`.
-/

/-- JSON-like JavaScript value, as found in upstream response bodies.
Trees are finite, so the source's cycle guard (`WeakSet` in `isBusyError`)
can never fire; its `[Circular]` branch is unreachable in this model. -/
inductive JVal where
  | jnull
  | jbool (b : Bool)
  | jnum (n : Int)
  | jstr (s : String)
  | jarr (elems : List JVal)
  | jobj (fields : List (String × JVal))
deriving Repr, Inhabited

namespace JVal

/-- JavaScript truthiness of a value. -/
def truthy : JVal → Bool
  | .jnull => false
  | .jbool b => b
  | .jnum n => n != 0
  | .jstr s => s ≠ ""
  | .jarr _ => true
  | .jobj _ => true

/-- Whether `typeof v === 'object'` and `v` is not `null`-excluded by a
preceding truthiness test (arrays and objects). -/
def isObjLike : JVal → Bool
  | .jobj _ => true
  | .jarr _ => true
  | _ => false

/-- Property access `v[name]` on an object; `none` models `undefined`. -/
def getField : JVal → String → Option JVal
  | .jobj fields, name => (fields.find? (fun f => f.1 = name)).map (·.2)
  | _, _ => none

mutual
/-- JavaScript `String(v)` conversion. -/
def jsToString : JVal → String
  | .jnull => "null"
  | .jbool b => if b then "true" else "false"
  | .jnum n => toString n
  | .jstr s => s
  | .jarr xs => String.intercalate "," (jsToStringElems xs)
  | .jobj _ => "[object Object]"

/-- Array elements under `Array.prototype.toString`: `null` renders empty. -/
def jsToStringElems : List JVal → List String
  | [] => []
  | .jnull :: vs => "" :: jsToStringElems vs
  | v :: vs => jsToString v :: jsToStringElems vs
end

/-- Minimal JSON string escaping (quote and backslash). -/
def jsonEscape (s : String) : String :=
  String.mk (s.data.foldl (fun acc c =>
    if c = '"' then acc ++ ['\\', '"']
    else if c = '\\' then acc ++ ['\\', '\\']
    else acc ++ [c]) [])

/-- Keys masked by the replacer in `isBusyError`'s `JSON.stringify` call. -/
def maskedKey (k : String) : Bool :=
  k = "socket" || k = "_httpMessage" || k = "request" || k = "response"

mutual
/-- `JSON.stringify` with the cycle-protecting replacer of `isBusyError`
(`src/utils/apiManager.js` lines 294-309): values of object type under the
keys `socket`, `_httpMessage`, `request`, `response` are replaced by the
string `[Object]`. -/
def jsonStringify : JVal → String
  | .jnull => "null"
  | .jbool b => if b then "true" else "false"
  | .jnum n => toString n
  | .jstr s => "\"" ++ jsonEscape s ++ "\""
  | .jarr xs => "[" ++ String.intercalate "," (jsonStringifyElems xs) ++ "]"
  | .jobj fs => "\x7b" ++ String.intercalate "," (jsonStringifyFields fs) ++ "\x7d"

def jsonStringifyElems : List JVal → List String
  | [] => []
  | v :: vs => jsonStringify v :: jsonStringifyElems vs

def jsonStringifyFields : List (String × JVal) → List String
  | [] => []
  | (k, v) :: fs =>
      (if maskedKey k && v.isObjLike then
        "\"" ++ jsonEscape k ++ "\":\"[Object]\""
      else
        "\"" ++ jsonEscape k ++ "\":" ++ jsonStringify v) :: jsonStringifyFields fs
end

end JVal

/-- Prefix test on character lists. -/
def startsWithChars : List Char → List Char → Bool
  | [], _ => true
  | _ :: _, [] => false
  | p :: ps, c :: cs => (p = c) && startsWithChars ps cs

/-- Substring test on character lists. -/
def containsChars (pat : List Char) : List Char → Bool
  | [] => pat.isEmpty
  | c :: cs => startsWithChars pat (c :: cs) || containsChars pat cs

/-- Case-insensitive substring test used for `/busy/i.test(text)`: the
lower-cased text contains the four characters of "busy" consecutively. -/
def hasBusy (text : String) : Bool :=
  containsChars ['b', 'u', 's', 'y'] (text.data.map Char.toLower)

/-- Upstream HTTP response attached to an axios error (`error.response`). -/
structure UpstreamResponse where
  status : Nat
  data : Option JVal := none
deriving Repr, Inhabited

/-- An axios error: optionally carries a response, a transport error code
(`error.code`, e.g. `ECONNABORTED`) and an `error.message` text. -/
structure UpstreamError where
  response : Option UpstreamResponse := none
  code : Option String := none
  message : String := ""
deriving Repr, Inhabited

/-- Text accumulated by the object branch of `isBusyError`
(`src/utils/apiManager.js` lines 273-309): truthy `error.message`,
`error.type`, `message`, `msg` fields are concatenated in source order with
the source's spacing; when none contributes, the replacer-guarded
`JSON.stringify` of the whole body is used. -/
def respTextObj (d : JVal) : String :=
  let t := ""
  let t := match d.getField "error" with
    | some ev =>
        if ev.truthy && ev.isObjLike then
          let t := match ev.getField "message" with
            | some m => if m.truthy then t ++ m.jsToString else t
            | none => t
          match ev.getField "type" with
            | some ty => if ty.truthy then t ++ " " ++ ty.jsToString else t
            | none => t
        else t
    | none => t
  let t := match d.getField "message" with
    | some m => if m.truthy then t ++ " " ++ m.jsToString else t
    | none => t
  let t := match d.getField "msg" with
    | some m => if m.truthy then t ++ " " ++ m.jsToString else t
    | none => t
  if t = "" then JVal.jsonStringify d else t

/-- The upstream-block detector `isBusyError` from
`src/utils/apiManager.js` lines 262-324; this is the predicate gating the
soft-block branch of the chat/completions handler (part_001 line 615). -/
def isBusyError (e : UpstreamError) : Bool :=
  match e.response with
  | none => false
  | some r =>
    match r.data with
    | none => false
    | some d =>
      if !d.truthy then false
      else
        let responseText :=
          match d with
          | .jstr s => s
          | .jobj _ => respTextObj d
          | .jarr _ => respTextObj d
          | _ => d.jsToString
        hasBusy responseText

/-- Contribution of a truthy object-typed `error` field to the probe text:
its truthy `message` rendered, then its truthy `type` with a leading
space. -/
def errFieldText (d : JVal) : String :=
  match d.getField "error" with
  | some ev =>
      if ev.truthy && ev.isObjLike then
        (match ev.getField "message" with
          | some m => if m.truthy then m.jsToString else ""
          | none => "") ++
        (match ev.getField "type" with
          | some ty => if ty.truthy then " " ++ ty.jsToString else ""
          | none => "")
      else ""
  | none => ""

/-- Contribution of a truthy top-level field (`message` or `msg`) to the
probe text: a leading space, then its rendering. -/
def namedFieldText (d : JVal) (name : String) : String :=
  match d.getField name with
  | some m => if m.truthy then " " ++ m.jsToString else ""
  | none => ""

/-- Specification-side text extraction for the amended C2: the body itself
when a string; for object bodies the concatenation of the `error` field's
contribution with the `message` and `msg` contributions, falling back to
the cycle-protected JSON serialization when all are empty; for arrays the
serialization; the JavaScript string rendering otherwise. -/
def busyProbeText (d : JVal) : String :=
  match d with
  | .jstr s => s
  | .jobj _ =>
      let fieldPart :=
        errFieldText d ++ namedFieldText d "message" ++ namedFieldText d "msg"
      if fieldPart = "" then JVal.jsonStringify d else fieldPart
  | .jarr _ => JVal.jsonStringify d
  | _ => d.jsToString

/-- Specification-side soft-block classifier (amended C2): a failing
response is a soft-block exactly when its derived probe text contains
"busy" case-insensitively. A numeric 50603 code does not participate. -/
def softBlockSpec (e : UpstreamError) : Bool :=
  match e.response with
  | none => false
  | some r =>
    match r.data with
    | none => false
    | some d => d.truthy && hasBusy (busyProbeText d)

/-- Trigger for the proxy fan-out, `shouldUseProxy` from
`src/unnamed/part_008` lines 169-198: no response, any 5xx, 403, 429, or a
50603 code (number or string) at the top level or under `error`. -/
def shouldUseProxy (e : UpstreamError) : Bool :=
  match e.response with
  | none => true
  | some r =>
    if 500 ≤ r.status || r.status = 403 || r.status = 429 then true
    else
      match r.data with
      | some d =>
        if d.truthy && d.isObjLike then
          (match d.getField "code" with
            | some (.jnum n) => n = 50603
            | some (.jstr s) => s = "50603"
            | _ => false) ||
          (match d.getField "error" with
            | some ev =>
                if ev.truthy && ev.isObjLike then
                  match ev.getField "code" with
                  | some (.jnum n) => n = 50603
                  | some (.jstr s) => s = "50603"
                  | _ => false
                else false
            | none => false)
        else false
      | none => false

/-- Default client-facing message for an upstream HTTP status
(`getErrorMessage` switch, `src/utils/apiManager.js` lines 362-381). -/
def statusMessage (status : Nat) : String :=
  if status = 400 then "请求参数错误"
  else if status = 401 then "API密钥无效或未授权"
  else if status = 403 then "API密钥权限不足或余额不足"
  else if status = 404 then "请求的资源不存在"
  else if status = 429 then "请求频率过高，请稍后重试"
  else if status = 500 then "服务器内部错误"
  else if status = 502 then "网关错误"
  else if status = 503 then "服务暂时不可用"
  else "请求失败 (HTTP " ++ toString status ++ ")"

/-- Error text extraction `getErrorMessage` from `src/utils/apiManager.js`
lines 327-398. -/
def getErrorMessage (e : UpstreamError) : String :=
  match e.response with
  | some r =>
    let extracted : Option String :=
      match r.data with
      | some d =>
        if d.truthy then
          match d with
          | .jstr s => some s
          | .jobj _ =>
            (match d.getField "error" with
              | some ev =>
                  if ev.truthy && ev.isObjLike then
                    match ev.getField "message" with
                    | some m => if m.truthy then some m.jsToString else none
                    | none => none
                  else none
              | none => none) <|>
            (match d.getField "message" with
              | some m => if m.truthy then some m.jsToString else none
              | none => none) <|>
            (match d.getField "msg" with
              | some m => if m.truthy then some m.jsToString else none
              | none => none) <|>
            (match d.getField "error" with
              | some (.jstr s) => if s ≠ "" then some s else none
              | _ => none)
          | _ => none
        else none
      | none => none
    extracted.getD (statusMessage r.status)
  | none =>
    if e.code = some "ECONNABORTED" then "请求超时"
    else if e.code = some "ENOTFOUND" || e.code = some "ECONNREFUSED" then "无法连接到服务器"
    else if e.message ≠ "" then e.message
    else "网络错误"

/-! ## Credential registry (`src/db/index.js`) -/

/-- Credential lifecycle status; the `api_keys.status` column is constrained
to these three values and defaults to `active`, so the embedded operations
never produce SQL NULL here. -/
inductive KeyStatus where
  | active
  | insufficient
  | error
deriving Repr, DecidableEq, Inhabited

/-- One row of the `api_keys` table. `is_available` is an INTEGER 0/1 column
that may be NULL in legacy rows (`none`); `balance` is REAL with default 0,
NULL modelled by `none`. Field defaults are exactly the table defaults of
the CREATE TABLE statement (`src/db/index.js` lines 39-51). -/
structure KeyRec where
  api_key : String
  status : KeyStatus := .active
  is_available : Option Bool := some true
  balance : Option ℚ := some 0
  balance_checked_at : Option Nat := none
  call_count : Nat := 0
  last_used_at : Option Nat := none
  error_count : Nat := 0
  last_error : Option String := none
deriving Repr, DecidableEq, Inhabited

/-- The registry: rows of `api_keys` as (id, record), listed in creation
order (ids are AUTOINCREMENT, so list order is also id order). -/
abbrev Registry := List (Nat × KeyRec)

/-- Row lookup by id (`getApiKeyById`). -/
def regLookup (reg : Registry) (i : Nat) : Option KeyRec :=
  (reg.find? (fun r => r.1 = i)).map (·.2)

/-- Point update of one row. -/
def regUpdate (reg : Registry) (i : Nat) (f : KeyRec → KeyRec) : Registry :=
  reg.map (fun r => if r.1 = i then (r.1, f r.2) else r)

/-- Effective availability of a row: the source treats `is_available === 1`
and `is_available === null` as available (e.g. `src/db/index.js` line 181,
`src/utils/apiManager.js` line 243). -/
def effAvailable (k : KeyRec) : Bool :=
  k.is_available ≠ some false

/-- Selection filter of `getActiveApiKeys` (`src/db/index.js` line 213):
`(is_available = 1 OR is_available IS NULL) AND (status IS NULL OR status
!= 'error')`, rows in creation order. -/
def availableForSelection (k : KeyRec) : Bool :=
  effAvailable k && k.status ≠ .error

/-- `getActiveApiKeys`: ids of selectable rows in creation order. -/
def getActiveApiKeys (reg : Registry) : List Nat :=
  (reg.filter (fun r => availableForSelection r.2)).map (·.1)

/-- Fresh row inserted by `addApiKey` (`src/db/index.js` lines 139-153):
only `api_key` is supplied, every other column takes its table default. -/
def newApiKeyRecord (secret : String) : KeyRec :=
  { api_key := secret }

/-- `addApiKey`: insert a new credential; `none` models the UNIQUE
constraint violation on a duplicate secret. -/
def addApiKey (reg : Registry) (nextId : Nat) (secret : String) :
    Option Registry :=
  if reg.any (fun r => r.2.api_key = secret) then none
  else some (reg ++ [(nextId, newApiKeyRecord secret)])

/-- Secret masking used by the normal listing (`src/db/index.js` line 180):
first 8 characters, an ellipsis, last 4 characters. -/
def maskApiKey (s : String) : String :=
  s.take 8 ++ "..." ++ s.drop (s.length - 4)

/-- One row of the normal listing `getAllApiKeys` (`src/db/index.js`
lines 167-189): `api_key` is masked, but `full_api_key` keeps the complete
secret (source comment: kept for clipboard copy). -/
structure ListedKey where
  id : Nat
  api_key : String
  full_api_key : String
  is_available : Bool
  balance : Option ℚ
deriving Repr, DecidableEq, Inhabited

/-- `getAllApiKeys`: the normal (non-export) listing. -/
def getAllApiKeys (reg : Registry) : List ListedKey :=
  reg.map (fun r =>
    { id := r.1
      api_key := if r.2.api_key ≠ "" then maskApiKey r.2.api_key else ""
      full_api_key := r.2.api_key
      is_available := effAvailable r.2
      balance := r.2.balance })

/-- `getAllApiKeysForExport` (`src/db/index.js` lines 191-206): full
secrets, creation order. -/
def getAllApiKeysForExport (reg : Registry) : List String :=
  reg.map (fun r => r.2.api_key)

/-- Availability re-check rule `checkAndUpdateAvailability`
(`src/utils/apiManager.js` lines 237-254), as the pure effect on the row
it reads and writes: demote when `error_count >= 3` and the parsed balance
is known and `< 1`; if currently unavailable and that conjunction fails,
restore; otherwise leave the row unchanged. -/
def checkAndUpdateAvailability (k : KeyRec) : KeyRec :=
  let errorCount := k.error_count
  let isAvailable := effAvailable k
  let balKnownLow : Bool := match k.balance with
    | some b => decide (b < 1)
    | none => false
  let balNullOrHigh : Bool := match k.balance with
    | some b => decide (1 ≤ b)
    | none => true
  if decide (3 ≤ errorCount) && balKnownLow then
    { k with is_available := some false }
  else if !isAvailable && (decide (errorCount < 3) || balNullOrHigh) then
    { k with is_available := some true }
  else k

/-! ## Key selector (`src/utils/apiManager.js` module state) -/

/-- Module-level selector state: the cached available list
(`activeApiKeys`) and the cursor (`currentApiKeyId`). -/
structure SelState where
  activeApiKeys : List Nat
  currentApiKeyId : Option Nat
deriving Repr, DecidableEq, Inhabited

/-- Whether a registry row exists and has status `active`; the selection
predicate applied by `getCurrentApiKey` and `switchToNextApiKey`. -/
def keyIsActive (reg : Registry) (i : Nat) : Bool :=
  match regLookup reg i with
  | some k => k.status = .active
  | none => false

/-- `loadActiveApiKeys` (`src/utils/apiManager.js` lines 11-21): reload the
cached list; clear the cursor when it no longer appears in the list. -/
def loadActiveApiKeys (reg : Registry) (s : SelState) : SelState :=
  let l := getActiveApiKeys reg
  { activeApiKeys := l
    currentApiKeyId := match s.currentApiKeyId with
      | some cid => if l.contains cid then some cid else none
      | none => none }

/-- The wrap-around scan of `switchToNextApiKey` lines 75-83: indices
`(startIndex + i) % length` for `i = 0 .. length-1`, returning the first
listed credential whose registry status is `active`. -/
def scanLoop (reg : Registry) (l : List Nat) (start : Nat) : Option Nat :=
  (List.range l.length).findSome? (fun i =>
    match l.get? ((start + i) % l.length) with
    | some id => if keyIsActive reg id then some id else none
    | none => none)

/-- Start position of the scan: `findIndex` of the cursor (or -1) plus one
(`switchToNextApiKey` lines 67-74). -/
def nextStart (s : SelState) : Nat :=
  match s.currentApiKeyId with
  | some cid =>
    match s.activeApiKeys.findIdx? (fun x => x = cid) with
    | some j => j + 1
    | none => 0
  | none => 0

/-- `switchToNextApiKey` (`src/utils/apiManager.js` lines 57-88): reload if
the cached list is empty; scan from the position after the cursor, wrapping
once; on a hit set the cursor, otherwise clear it. Returns the id of the
credential the source would return. -/
def switchToNextApiKey (reg : Registry) (s : SelState) :
    Option Nat × SelState :=
  let s := if s.activeApiKeys.isEmpty then loadActiveApiKeys reg s else s
  if s.activeApiKeys.isEmpty then
    (none, { s with currentApiKeyId := none })
  else
    match scanLoop reg s.activeApiKeys (nextStart s) with
    | some found => (some found, { s with currentApiKeyId := some found })
    | none => (none, { s with currentApiKeyId := none })

/-! ## Block records, events, engine state -/

/-- One row of `ip_blacklist` (`src/db/index.js` lines 60-65); timestamps in
abstract milliseconds. -/
structure BlockRec where
  blockedAt : Nat
  unblockAt : Nat
  reason : String
deriving Repr, DecidableEq, Inhabited

/-- Accumulator pass of the `ORDER BY blocked_at DESC LIMIT 1` selection:
keep the record with the largest block time. -/
def pickLatest : Option BlockRec → List BlockRec → Option BlockRec
  | acc, [] => acc
  | acc, r :: rest =>
    match acc with
    | none => pickLatest (some r) rest
    | some a => pickLatest (some (if a.blockedAt < r.blockedAt then r else a)) rest

/-- `isIpBlocked` (`src/db/index.js` lines 305-319): the most recently
blocked record among those whose unblock time is strictly in the future, or
`none`. -/
def isIpBlocked (bl : List BlockRec) (now : Nat) : Option BlockRec :=
  pickLatest none (bl.filter (fun r => decide (now < r.unblockAt)))

/-- Observable actions of the engine. `chatDispatch` is a main-loop upstream
chat call (with the pinned proxy id when one was applied), `proxyAttempt` an
upstream chat call made inside the proxy fan-out, `balanceProbe` a
`/user/info` call, `usageWrite` an `api_usage` insert, `blockWrite` an
`ip_blacklist` insert. -/
inductive EvKind where
  | chatDispatch (kid : Nat) (viaProxy : Option Nat)
  | proxyAttempt (pid : Nat)
  | balanceProbe (kid : Nat)
  | usageWrite (kid : Nat) (success : Bool)
  | blockWrite (unblockAt : Nat) (reason : String)
deriving Repr, DecidableEq, Inhabited

/-- A recorded action, tagged with whether a disconnect had already been
observed (some earlier `checkClientDisconnected()` returned true) when the
action was performed. -/
structure Event where
  kind : EvKind
  disc : Bool
deriving Repr, DecidableEq, Inhabited

/-- One row of `proxy_config` (fields the selector reads). -/
structure ProxyCfg where
  id : Nat
  ptype : String
  host : String := ""
  port : Nat := 0
deriving Repr, DecidableEq, Inhabited

/-- `createProxyAgent` (`src/unnamed/part_008` lines 79-103) succeeds
exactly for the three supported schemes. -/
def agentOk (p : ProxyCfg) : Bool :=
  p.ptype = "socks5" || p.ptype = "http" || p.ptype = "https"

/-- Mutable state threaded through one request: the registry, the selector
module state, the block list, the proxy pin (persisted row `proxy_state`
plus the module-level mirror variables `activeProxyId` / `proxyExpiresAt`
of part_008), the event trace, the sticky `clientDisconnected` flag, and
oracle cursors counting the checks / upstream calls performed so far. -/
structure EngSt where
  reg : Registry
  sel : SelState
  blacklist : List BlockRec
  dbPin : Option (Nat × Nat)
  modId : Option Nat
  modExp : Option Nat
  trace : List Event
  disc : Bool
  nChecks : Nat
  nChat : Nat
  nProxy : Nat
  nProbe : Nat
deriving Repr, DecidableEq, Inhabited

/-- Outcome of one main-loop upstream chat dispatch. -/
inductive Outcome where
  | ok
  | fail (e : UpstreamError)
deriving Inhabited

/-- Result of `queryBalance` (`src/utils/apiManager.js` lines 120-223):
the `success` flag and the parsed balance (`none` models null). -/
structure ProbeRes where
  success : Bool
  balance : Option ℚ
deriving Repr, DecidableEq, Inhabited

/-- Request environment: frozen clock, configuration, and oracles giving
the outcome of the n-th upstream chat call, the n-th fan-out proxy attempt,
the n-th balance probe, and whether the client has disconnected by the n-th
`checkClientDisconnected()` checkpoint. -/
structure Env where
  now : Nat
  proxyEnabled : Bool
  proxyConfigs : List ProxyCfg
  autoQueryThreshold : Nat
  chatOracle : Nat → Outcome
  proxyOracle : Nat → Bool
  probeOracle : Nat → ProbeRes
  discSchedule : Nat → Bool

/-- Record an action with the current disconnect-observed tag. -/
def emit (st : EngSt) (k : EvKind) : EngSt :=
  { st with trace := st.trace ++ [{ kind := k, disc := st.disc }] }

/-- `checkClientDisconnected()`: the flag is sticky; the environment may
set it at any checkpoint (modelling the socket close / abort listeners that
run between awaits). -/
def check (env : Env) (st : EngSt) : Bool × EngSt :=
  let d := st.disc || env.discSchedule st.nChecks
  (d, { st with disc := d, nChecks := st.nChecks + 1 })

/-! ## Outbound-proxy selector (`src/unnamed/part_008`) -/

/-- Result of `tryProxyRequest`: `notUsed` models the early `null` return
(proxy mode disabled), `success pid` a response obtained through proxy
`pid`, `allFailed` the final failure object. -/
inductive ProxyResult where
  | notUsed
  | success (pid : Nat)
  | allFailed
deriving Repr, DecidableEq, Inhabited

/-- `getActiveProxy` (part_008 lines 21-49): the expiry test reads the
module mirror `proxyExpiresAt` before the persisted row is consulted; an
expired mirror clears both and yields nothing, otherwise the persisted pin
is read, copied into the mirror, and resolved against the config list
(`active_proxy_id` must be truthy, i.e. nonzero). -/
def getActiveProxyEng (env : Env) (st : EngSt) : Option ProxyCfg × EngSt :=
  let expired := match st.modExp with
    | some exp => decide (exp < env.now)
    | none => false
  if expired then
    (none, { st with dbPin := none, modId := none, modExp := none })
  else
    match st.dbPin with
    | some (pid, exp) =>
      if pid ≠ 0 then
        let st := { st with modId := some pid, modExp := some exp }
        (env.proxyConfigs.find? (fun p => p.id = pid), st)
      else (none, st)
    | none => (none, st)

/-- `setActiveProxy` (part_008 lines 52-63): pin for 60 minutes. -/
def setActiveProxyEng (env : Env) (st : EngSt) (pid : Nat) : EngSt :=
  let exp := env.now + 60 * 60 * 1000
  { st with dbPin := some (pid, exp), modId := some pid, modExp := some exp }

/-- `clearActiveProxy` (part_008 lines 66-76). -/
def clearActiveProxyEng (st : EngSt) : EngSt :=
  { st with dbPin := none, modId := none, modExp := none }

/-- One axios attempt through a proxy inside `tryProxyRequest`: consumes
the next fan-out oracle value and records the attempt. -/
def attemptProxy (env : Env) (st : EngSt) (pid : Nat) : Bool × EngSt :=
  let ok := env.proxyOracle st.nProxy
  let st := { st with nProxy := st.nProxy + 1 }
  let st := emit st (.proxyAttempt pid)
  (ok, st)

/-- The fan-out of `tryProxyRequest` (part_008 lines 137-161): iterate the
configured proxies in stored order, skipping those whose agent cannot be
built; pin and return the first that succeeds. -/
def fanOut (env : Env) (st : EngSt) : List ProxyCfg → ProxyResult × EngSt
  | [] => (.allFailed, st)
  | p :: rest =>
    if !agentOk p then fanOut env st rest
    else
      let (ok, st) := attemptProxy env st p.id
      if ok then (.success p.id, setActiveProxyEng env st p.id)
      else fanOut env st rest

/-- `tryProxyRequest` (part_008 lines 106-166): when proxy mode is enabled,
first attempt through a currently active (pinned) proxy — returning on
success, clearing the pin on failure — then fan out over the configured
list. -/
def tryProxyRequestEng (env : Env) (st : EngSt) : ProxyResult × EngSt :=
  if !env.proxyEnabled then (.notUsed, st)
  else
    let (active, st) := getActiveProxyEng env st
    match active with
    | some p =>
      if agentOk p then
        let (ok, st1) := attemptProxy env st p.id
        if ok then (.success p.id, st1)
        else fanOut env (clearActiveProxyEng st1) env.proxyConfigs
      else fanOut env st env.proxyConfigs
    | none => fanOut env st env.proxyConfigs

/-! ## Registry and selector operations as used by the engine -/

/-- `setCurrentApiKeyId` (`src/utils/apiManager.js` lines 406-408). -/
def setCursorEng (st : EngSt) (kid : Nat) : EngSt :=
  { st with sel := { st.sel with currentApiKeyId := some kid } }

/-- `refreshApiKeys` / `loadActiveApiKeys` applied to the engine state. -/
def refreshEng (st : EngSt) : EngSt :=
  { st with sel := loadActiveApiKeys st.reg st.sel }

/-- `updateApiKeyStatus` (`src/db/index.js` lines 242-256): with an error
text the error counter is incremented, otherwise it is reset. -/
def updateApiKeyStatusDb (reg : Registry) (i : Nat) (s : KeyStatus)
    (err : Option String) (now : Nat) : Registry :=
  match err with
  | some e => regUpdate reg i (fun k =>
      { k with status := s, error_count := k.error_count + 1,
               last_error := some e, last_used_at := some now })
  | none => regUpdate reg i (fun k =>
      { k with status := s, error_count := 0,
               last_error := none, last_used_at := some now })

/-- `markApiKeyStatus` (`src/utils/apiManager.js` lines 226-233): write the
status and, when it is not `active`, reload the cached available list. -/
def markApiKeyStatusEng (env : Env) (st : EngSt) (i : Nat) (s : KeyStatus)
    (err : Option String) : EngSt :=
  let st := { st with reg := updateApiKeyStatusDb st.reg i s err env.now }
  if s ≠ .active then refreshEng st else st

/-- `incrementCallCount` (`src/db/index.js` lines 278-286). -/
def incrementCallCountEng (env : Env) (st : EngSt) (i : Nat) : EngSt :=
  { st with reg := regUpdate st.reg i (fun k =>
      { k with call_count := k.call_count + 1, last_used_at := some env.now }) }

/-- `updateApiKeyBalance` (`src/db/index.js` lines 258-266). -/
def updateBalanceEng (env : Env) (st : EngSt) (i : Nat) (b : ℚ) : EngSt :=
  { st with reg := regUpdate st.reg i (fun k =>
      { k with balance := some b, balance_checked_at := some env.now }) }

/-- `updateApiKeyAvailability` (`src/db/index.js` lines 268-276). -/
def updateAvailabilityEng (st : EngSt) (i : Nat) (a : Bool) : EngSt :=
  { st with reg := regUpdate st.reg i (fun k => { k with is_available := some a }) }

/-- `recordUsage` (`src/db/index.js` lines 288-302) as an observable event. -/
def recordUsageEng (st : EngSt) (i : Nat) (success : Bool) : EngSt :=
  emit st (.usageWrite i success)

/-- Reason text passed to `blockIp` at part_001 line 620. -/
def busyBlockReason : String := "检测到50603错误（系统繁忙），代理服务器IP被上游拉黑30分钟"

/-- `blockIp` (`src/db/index.js` lines 322-337): insert a block record that
expires 30 minutes from now. -/
def blockIpEng (env : Env) (st : EngSt) (reason : String) : EngSt :=
  let r : BlockRec :=
    { blockedAt := env.now, unblockAt := env.now + 30 * 60 * 1000, reason := reason }
  emit { st with blacklist := st.blacklist ++ [r] } (.blockWrite r.unblockAt reason)

/-- `checkAndUpdateAvailability` as invoked by the engine
(`src/utils/apiManager.js` lines 237-254): read the row, apply the rule,
write the availability flag and reload the cached list in the two branches
that perform a write. -/
def checkAndUpdateAvailabilityEng (st : EngSt) (i : Nat) : EngSt :=
  match regLookup st.reg i with
  | none => st
  | some k =>
    let balKnownLow : Bool := match k.balance with
      | some b => decide (b < 1)
      | none => false
    let balNullOrHigh : Bool := match k.balance with
      | some b => decide (1 ≤ b)
      | none => true
    if decide (3 ≤ k.error_count) && balKnownLow then
      refreshEng { st with reg := (regUpdate st.reg i fun j => { j with is_available := some false }) }
    else if !(effAvailable k) && (decide (k.error_count < 3) || balNullOrHigh) then
      refreshEng { st with reg := (regUpdate st.reg i fun j => { j with is_available := some true }) }
    else st

/-- Success epilogue of part_001 lines 363-369: if the row still reads
status `error`, restore availability and reload. -/
def restoreIfErrorEng (st : EngSt) (i : Nat) : EngSt :=
  match regLookup st.reg i with
  | some k =>
    if k.status = .error then refreshEng (updateAvailabilityEng st i true) else st
  | none => st

/-- `queryBalance` dispatch: consumes the next probe-oracle value and
records the `/user/info` call. -/
def probeBalance (env : Env) (st : EngSt) (kid : Nat) : ProbeRes × EngSt :=
  let r := env.probeOracle st.nProbe
  let st := { st with nProbe := st.nProbe + 1 }
  (r, emit st (.balanceProbe kid))

/-- `handleAutoQueryBalance` (part_001 lines 924-964), run inline: when the
call counter has reached a multiple of the threshold, probe the balance and
apply the insufficient/restore rules. -/
def autoQueryBalanceEng (env : Env) (st : EngSt) (kid : Nat) : EngSt :=
  match regLookup st.reg kid with
  | none => st
  | some k =>
    if 0 < k.call_count && k.call_count % env.autoQueryThreshold = 0 then
      let (bi, st) := probeBalance env st kid
      match bi.balance with
      | some b =>
        if bi.success then
          let st := updateBalanceEng env st kid b
          if b < 1 then
            let st := markApiKeyStatusEng env st kid .insufficient (some "余额不足")
            let st := updateAvailabilityEng st kid false
            refreshEng st
          else
            let st := markApiKeyStatusEng env st kid .active none
            match regLookup st.reg kid with
            | some ck =>
              if ck.is_available = some false || ck.is_available = none then
                refreshEng (updateAvailabilityEng st kid true)
              else st
            | none => st
        else st
      | none => st
    else st

/-! ## The request engine (`src/unnamed/part_001`, POST /chat/completions) -/

/-- Client-visible outcome of `forward`. `aborted` models a handler
`return` with no response written (client already gone), `fellThrough`
the end of the handler body without an explicit return. -/
inductive Resp where
  | okJson
  | ipBlocked (unblockAt : Nat) (remainingMinutes : Nat)
  | noKeys
  | allFailedSwitch
  | allFailedFinal
  | aborted
  | fellThrough
deriving Repr, DecidableEq, Inhabited

/-- `Math.ceil((unblockTime - now) / 60000)` for a future unblock time. -/
def remainingMinutes (now unblockAt : Nat) : Nat :=
  (unblockAt - now + 59999) / 60000

/-- Exit of the inner retry loop: an explicit handler return carrying a
response, a silent return (disconnect paths), or falling out of the loop
(`break` or a false loop condition) with the current `lastErrorKeyId` and
`keySuccess` values. -/
inductive RetryExit where
  | respond (r : Resp)
  | silent
  | exited (lastErr : Option Nat) (keySuccess : Bool)
deriving Repr, DecidableEq, Inhabited

/-- The 30-second retry backoff (part_001 lines 794-800): up to 30 one-second
sleeps, each preceded by a disconnect check and followed by a cursor
refresh. -/
def waitLoop (env : Env) (st : EngSt) (kid : Nat) : Nat → EngSt
  | 0 => st
  | n + 1 =>
    let (d, st) := check env st
    if d then st
    else waitLoop env (setCursorEng st kid) kid n

/-- Lines 788-807: the guarded cooperative wait before a retry; `.inl`
carries an early handler return, `.inr` the state in which the loop
continues with `retryCount + 1`. -/
def retryWait (env : Env) (st : EngSt) (kid : Nat) : Sum (RetryExit × EngSt) EngSt :=
  let (d, st) := check env st
  if d then .inl (.silent, st)
  else
    let st := setCursorEng st kid
    let st := waitLoop env st kid 30
    let (d, st) := check env st
    if d then .inl (.silent, st)
    else .inr st

/-- One upstream chat dispatch (part_001 lines 307-330): read the active
proxy pin (possibly clearing an expired one), consume the next chat-oracle
outcome and record the dispatch. -/
def attemptChat (env : Env) (st : EngSt) (kid : Nat) : Outcome × EngSt :=
  let (activeProxy, st) := getActiveProxyEng env st
  let out := env.chatOracle st.nChat
  let st := { st with nChat := st.nChat + 1 }
  let st := emit st (.chatDispatch kid (activeProxy.map (·.id)))
  (out, st)

/-- Success bookkeeping shared by the direct and proxy success paths
(part_001 lines 341-369 and 502-529): mark active, bump the call counter,
log the usage row, restore availability if the row still reads `error`. -/
def successEpilogue (env : Env) (st : EngSt) (kid : Nat) : EngSt :=
  let st := markApiKeyStatusEng env st kid .active none
  let st := incrementCallCountEng env st kid
  let st := recordUsageEng st kid true
  restoreIfErrorEng st kid

/-- The soft-block branch (part_001 lines 615-642): record the block (when
the client is still connected) and answer the structured 503. -/
def busyBranch (env : Env) (st : EngSt) : RetryExit × EngSt :=
  let (d1, st) := check env st
  let st := if !d1 then blockIpEng env st busyBlockReason else st
  let (d2, st) := check env st
  if !d2 then (.respond (.ipBlocked (env.now + 30 * 60 * 1000) 30), st)
  else (.silent, st)

/-- The guarded failure bookkeeping (part_001 lines 733-752): when the
client is still connected, log the failed usage row and mark the
credential `error` (incrementing its error counter). -/
def errorRecord (env : Env) (st : EngSt) (kid : Nat) (e : UpstreamError) : EngSt :=
  let (d, st) := check env st
  if !d then
    markApiKeyStatusEng env (recordUsageEng st kid false) kid .error
      (some (getErrorMessage e))
  else st

/-- Retries exhausted (part_001 lines 809-817): mark the credential
`error`, re-apply the availability rule, and leave the retry loop with
`lastErrorKeyId` set (all skipped if the client has disconnected). -/
def retryExhaust (env : Env) (st : EngSt) (kid : Nat) (lastErr : Option Nat)
    (e : UpstreamError) : RetryExit × EngSt :=
  let (d2, st) := check env st
  if !d2 then
    let st := markApiKeyStatusEng env st kid .error (some (getErrorMessage e))
    let st := checkAndUpdateAvailabilityEng st kid
    (.exited (some kid) false, st)
  else (.exited lastErr false, st)

/-- The pre-retry balance probe and cooperative wait (part_001 lines
756-808): probe, store the balance, break out demoted when it is `< 1`,
otherwise wait 30 seconds (polled) and continue (`.inr`). -/
def preRetryProbe (env : Env) (st : EngSt) (kid : Nat) :
    Sum (RetryExit × EngSt) EngSt :=
  let (d, st) := check env st
  if d then .inl (.silent, st)
  else
    let (bi, st) := probeBalance env st kid
    let (d, st) := check env st
    if d then .inl (.silent, st)
    else
      match bi.balance with
      | some b =>
        if bi.success then
          let st := updateBalanceEng env st kid b
          let (d, st) := check env st
          if d then .inl (.silent, st)
          else if b < 1 then
            let st := markApiKeyStatusEng env st kid .insufficient (some "余额不足")
            let st := updateAvailabilityEng st kid false
            let st := checkAndUpdateAvailabilityEng st kid
            .inl (.exited (some kid) false, st)
          else retryWait env st kid
        else retryWait env st kid
      | none => retryWait env st kid

/-- The catch block of one attempt (part_001 lines 465-818): disconnect
guard, proxy fan-out on the credential's first attempt when the error
class warrants it, soft-block detection, failure bookkeeping, then either
the pre-retry probe/wait or the exhausted-retries exit. -/
def failBranch (env : Env) (st : EngSt) (kid retryCount : Nat)
    (lastErr : Option Nat) (e : UpstreamError) : Sum (RetryExit × EngSt) EngSt :=
  let (d, st) := check env st
  if d then .inl (.silent, st)
  else
    let fanoutTriggered := env.proxyEnabled && shouldUseProxy e && decide (retryCount = 0)
    let (pres, st) :=
      if fanoutTriggered then tryProxyRequestEng env st else (ProxyResult.notUsed, st)
    match pres with
    | .success _ => .inl (.respond .okJson, successEpilogue env st kid)
    | _ =>
      if isBusyError e then .inl (busyBranch env st)
      else
        let st := errorRecord env st kid e
        if decide (retryCount < 3) then
          let (d1, st) := check env st
          if d1 then .inl (retryExhaust env st kid lastErr e)
          else preRetryProbe env st kid
        else .inl (retryExhaust env st kid lastErr e)

/-- One iteration of the inner retry loop body (part_001 lines 294-819),
after the loop condition has been passed. `.inl` is a loop exit, `.inr` the
state in which the next iteration runs. -/
def retryBody (env : Env) (st : EngSt) (kid : Nat) (retryCount : Nat)
    (lastErr : Option Nat) : Sum (RetryExit × EngSt) EngSt :=
  let (d, st) := check env st
  if d then .inl (.silent, st)
  else
    let (out, st) := attemptChat env st kid
    match out with
    | .ok =>
      let (d, st) := check env st
      if d then .inl (.silent, st)
      else
        let st := successEpilogue env st kid
        let st := if 0 < env.autoQueryThreshold then autoQueryBalanceEng env st kid else st
        .inl (.respond .okJson, st)
    | .fail e => failBranch env st kid retryCount lastErr e

/-- The inner retry loop (part_001 lines 293-820): condition
`retryCount <= MAX_RETRIES && !keySuccess && !checkClientDisconnected()`,
then one body iteration. The fuel starts at 4 = MAX_RETRIES + 1 and bounds
the recursion; the zero-fuel case is unreachable from `forward`. -/
def retryLoop (env : Env) (kid : Nat) :
    EngSt → Nat → Option Nat → Nat → RetryExit × EngSt
  | st, _, lastErr, 0 => (.exited lastErr false, st)
  | st, retryCount, lastErr, fuel + 1 =>
    if decide (retryCount ≤ 3) then
      let (d, st) := check env st
      if d then (.exited lastErr false, st)
      else
        match retryBody env st kid retryCount lastErr with
        | .inl r => r
        | .inr st => retryLoop env kid st (retryCount + 1) lastErr fuel
    else (.exited lastErr false, st)

/-- Recovery of a previously failing credential (part_001 lines 822-856),
guarded in the caller by `keySuccess`. -/
def recoveryBlock (env : Env) (st : EngSt) (kid : Nat) (lastErr : Option Nat) :
    Sum (Resp × EngSt) EngSt :=
  match lastErr with
  | none => .inr st
  | some le =>
    if le ≠ 0 && le ≠ kid then
      let (d, st) := check env st
      if d then .inr st
      else
        match regLookup st.reg le with
        | none => .inr st
        | some _ =>
          let (d, st) := check env st
          if d then .inr st
          else
            let (bi, st) := probeBalance env st le
            let (d, st) := check env st
            if d then .inl (.aborted, st)
            else
              match bi.balance with
              | some b =>
                if bi.success then
                  let st := updateBalanceEng env st le b
                  let (d, st) := check env st
                  if d then .inl (.aborted, st)
                  else if 1 ≤ b then
                    let st := markApiKeyStatusEng env st le .active none
                    let st := updateAvailabilityEng st le true
                    .inr (refreshEng st)
                  else
                    let st := markApiKeyStatusEng env st le .error (some "余额不足")
                    let st := updateAvailabilityEng st le false
                    .inr st
                else .inr st
              | none => .inr st
    else .inr st

/-- Lines 888-906 with `requestSuccess` false: final disconnect check, then
the terminal 503. -/
def afterKeyLoop (env : Env) (st : EngSt) : Resp × EngSt :=
  let (d, st) := check env st
  if d then (.aborted, st)
  else
    let (d2, st) := check env st
    if !d2 then (.allFailedFinal, st) else (.aborted, st)

/-- Lines 888-906 with `requestSuccess` true (unreachable from `forward`
because every success path returns inside the loop). -/
def afterKeyLoopSuccess (env : Env) (st : EngSt) : Resp × EngSt :=
  let (d, st) := check env st
  if d then (.aborted, st) else (.fellThrough, st)

/-- One iteration of the outer credential loop after its condition passed:
run the retry loop for the current credential, then the recovery block, the
rotation of lines 858-884, or a terminal response. `.inr` carries the state,
credential and `lastErrorKeyId` for the next iteration. -/
def keyStep (env : Env) (st : EngSt) (kid : Nat) (lastErr : Option Nat) :
    Sum (Resp × EngSt) (EngSt × Nat × Option Nat) :=
  match retryLoop env kid st 0 lastErr 4 with
  | (.respond r, st) => .inl (r, st)
  | (.silent, st) => .inl (.aborted, st)
  | (.exited lastErr2 ks, st) =>
    let after := if ks then recoveryBlock env st kid lastErr2 else .inr st
    match after with
    | .inl r => .inl r
    | .inr st =>
      if ks then .inl (afterKeyLoopSuccess env st)
      else
        let (d, st) := check env st
        if d then
          let (_, st) := check env st
          .inl (afterKeyLoop env st)
        else
          let (newKey, sel2) := switchToNextApiKey st.reg st.sel
          let st := { st with sel := sel2 }
          let (d, st) := check env st
          if d then .inl (.aborted, st)
          else
            match newKey with
            | none =>
              let (d, st) := check env st
              if !d then .inl (.allFailedSwitch, st) else .inl (.aborted, st)
            | some kid2 => .inr (setCursorEng st kid2, kid2, lastErr2)

/-- The outer credential loop (part_001 lines 288-886): condition
`keyAttempts < maxKeyAttempts && !requestSuccess && !checkClientDisconnected()`;
the fuel starts at `maxKeyAttempts = 10`. -/
def keyLoop (env : Env) : EngSt → Nat → Option Nat → Nat → Resp × EngSt
  | st, _, _, 0 => afterKeyLoop env st
  | st, kid, lastErr, fuel + 1 =>
    let (d, st) := check env st
    if d then afterKeyLoop env st
    else
      match keyStep env st kid lastErr with
      | .inl r => r
      | .inr (st, kid2, lastErr2) => keyLoop env st kid2 lastErr2 fuel

/-- Head scan of `getCurrentApiKey` (apiManager lines 45-51): first listed
credential whose registry status is `active`; sets the cursor on a hit. -/
def scanHead (st : EngSt) : Option Nat × EngSt :=
  match st.sel.activeApiKeys.find? (fun i => keyIsActive st.reg i) with
  | some i => (some i, { st with sel := { st.sel with currentApiKeyId := some i } })
  | none => (none, st)

/-- `getCurrentApiKey` (`src/utils/apiManager.js` lines 24-54): reload if
the cached list is empty; keep a truthy cursor whose row is still active,
otherwise clear it and scan from the head. -/
def getCurrentApiKeyEng (st : EngSt) : Option Nat × EngSt :=
  let st := if st.sel.activeApiKeys.isEmpty then refreshEng st else st
  if st.sel.activeApiKeys.isEmpty then (none, st)
  else
    match st.sel.currentApiKeyId with
    | some cid =>
      if cid = 0 then scanHead st
      else if keyIsActive st.reg cid then (some cid, st)
      else scanHead { st with sel := { st.sel with currentApiKeyId := none } }
    | none => scanHead st

/-- `forward`: the POST /chat/completions handler (part_001 lines 145-921).
Precondition order is the source's: the global block check first (returning
the structured 503 without touching anything else), then credential
selection, then the bounded main loop. -/
def forward (env : Env) (st0 : EngSt) : Resp × EngSt :=
  match isIpBlocked st0.blacklist env.now with
  | some b => (.ipBlocked b.unblockAt (remainingMinutes env.now b.unblockAt), st0)
  | none =>
    let (k0, st) := getCurrentApiKeyEng st0
    match k0 with
    | none => (.noKeys, st)
    | some kid => keyLoop env (setCursorEng st kid) kid none 10

/-! ## Claim theorems: availability, listing, fresh credentials -/

/-- C6: `checkAndUpdateAvailability` leaves a credential unavailable exactly
when `error_count ≥ 3` and its balance is known and `< 1.0`; whenever that
conjunction fails the credential ends up available (restoring it if it was
not); in particular a credential with unknown (null) balance is never
demoted by this rule. -/
theorem checkAndUpdateAvailability_rule (k : KeyRec) :
    (effAvailable (checkAndUpdateAvailability k) = false ↔
      3 ≤ k.error_count ∧ ∃ b, k.balance = some b ∧ b < 1)
    ∧ (k.balance = none → effAvailable (checkAndUpdateAvailability k) = true) := by
  rcases hb : k.balance with _ | b
  · by_cases hav : k.is_available = some false <;>
      simp [checkAndUpdateAvailability, effAvailable, hb, hav]
  · by_cases h3 : 3 ≤ k.error_count
    · by_cases hlt : b < 1
      · simp [checkAndUpdateAvailability, effAvailable, hb, h3, hlt]
      · by_cases hav : k.is_available = some false <;>
          simp [checkAndUpdateAvailability, effAvailable, hb, h3, hlt, hav, not_lt.mp hlt]
    · by_cases hav : k.is_available = some false <;>
        simp [checkAndUpdateAvailability, effAvailable, hb, h3, Nat.lt_of_not_le h3, hav] <;>
        omega

/-- C9 (amended): the normal listing returns the secret masked to its first
8 and last 4 characters in the `api_key` field, but also carries the full
secret in the `full_api_key` field; the export operation returns full
secrets. -/
theorem getAllApiKeys_mask_and_export (reg : Registry) :
    ((getAllApiKeys reg).map (fun r => r.api_key) =
      reg.map (fun r => if r.2.api_key ≠ "" then maskApiKey r.2.api_key else ""))
    ∧ ((getAllApiKeys reg).map (fun r => r.full_api_key) =
      reg.map (fun r => r.2.api_key))
    ∧ getAllApiKeysForExport reg = reg.map (fun r => r.2.api_key) := by
  refine ⟨?_, ?_, rfl⟩ <;> simp [getAllApiKeys]

/-- C9 counterexample: on a concrete registry the normal listing
`getAllApiKeys` exposes the complete secret through its `full_api_key`
field, refuting the claim that only the export path returns full secrets. -/
theorem getAllApiKeys_exposes_full_secret :
    (getAllApiKeys [(1, { api_key := "sk-exampleSECRET0000" })]).map
        (fun r => r.full_api_key) = ["sk-exampleSECRET0000"]
    ∧ (getAllApiKeys [(1, { api_key := "sk-exampleSECRET0000" })]).map
        (fun r => r.api_key) = ["sk-examp...0000"] := by
  constructor <;> rfl

/-- C10: a credential inserted by `addApiKey` at a fresh id takes the table
defaults — status `active`, availability 1, zero error and call counters,
and a known balance of 0 — and is therefore immediately eligible for
selection (it passes the `getActiveApiKeys` filter and the `status =
'active'` selection test) even though its recorded balance is below the 1.0
threshold. -/
theorem addApiKey_fresh_eligible (reg reg' : Registry) (nextId : Nat) (secret : String)
    (hadd : addApiKey reg nextId secret = some reg')
    (hfresh : regLookup reg nextId = none) :
    regLookup reg' nextId = some (newApiKeyRecord secret)
    ∧ (newApiKeyRecord secret).status = .active
    ∧ (newApiKeyRecord secret).is_available = some true
    ∧ (newApiKeyRecord secret).error_count = 0
    ∧ (newApiKeyRecord secret).call_count = 0
    ∧ (newApiKeyRecord secret).balance = some 0
    ∧ availableForSelection (newApiKeyRecord secret) = true
    ∧ keyIsActive reg' nextId = true
    ∧ nextId ∈ getActiveApiKeys reg'
    ∧ (∃ b, (newApiKeyRecord secret).balance = some b ∧ b < 1) := by
  have hreg : reg' = reg ++ [(nextId, newApiKeyRecord secret)] := by
    by_cases hdup : reg.any (fun r => r.2.api_key = secret)
    · simp [addApiKey, hdup] at hadd
    · simp [addApiKey, hdup] at hadd
      exact hadd.symm
  have hlook : regLookup reg' nextId = some (newApiKeyRecord secret) := by
    subst hreg
    unfold regLookup at hfresh ⊢
    rw [List.find?_append]
    rcases hf : reg.find? (fun r => r.1 = nextId) with _ | p
    · simp [hf]
    · simp [hf] at hfresh
  refine ⟨hlook, rfl, rfl, rfl, rfl, rfl, by rfl, ?_, ?_, ⟨0, rfl, by norm_num⟩⟩
  · simp [keyIsActive, hlook, newApiKeyRecord]
  · subst hreg
    simp [getActiveApiKeys, List.mem_map, List.mem_filter]
    exact Or.inr rfl

/-- C10 witness: adding a fresh secret to the empty registry. -/
theorem addApiKey_fresh_eligible_witness :
    addApiKey [] 1 "sk-demo" = some [(1, newApiKeyRecord "sk-demo")]
    ∧ regLookup [] 1 = none
    ∧ keyIsActive [(1, newApiKeyRecord "sk-demo")] 1 = true := by
  refine ⟨rfl, rfl, (addApiKey_fresh_eligible [] [(1, newApiKeyRecord "sk-demo")] 1 "sk-demo" rfl rfl).2.2.2.2.2.2.2.1⟩

/-! ## Claim theorems: the soft-block classifier -/

set_option maxHeartbeats 1000000 in
/-- The mutation-style text accumulation of `isBusyError` equals the
compositional probe-text extraction. -/
theorem respTextObj_eq_probe (fs : List (String × JVal)) :
    respTextObj (.jobj fs) = busyProbeText (.jobj fs) := by
  unfold respTextObj busyProbeText errFieldText namedFieldText
  rcases hE : JVal.getField (.jobj fs) "error" with _ | ev <;>
    rcases hM : JVal.getField (.jobj fs) "message" with _ | m <;>
      rcases hG : JVal.getField (.jobj fs) "msg" with _ | g <;>
        simp only [hE, hM, hG]
  all_goals (
    (try by_cases hev : (ev.truthy && ev.isObjLike) = true) <;>
    (try rcases hEM : ev.getField "message" with _ | em) <;>
    (try rcases hET : ev.getField "type" with _ | et) <;>
    (try by_cases hemt : em.truthy) <;>
    (try by_cases hett : et.truthy) <;>
    (try by_cases hmt : m.truthy) <;>
    (try by_cases hgt : g.truthy) <;>
    simp_all [String.empty_append, String.append_empty, String.append_assoc])

/-- C2 (amended): the detector classifies a failing response as soft-block
exactly when the derived probe text of its body contains "busy"
case-insensitively — the body itself for string bodies, the concatenated
truthy `error.message`/`error.type`/`message`/`msg` fields (JSON
serialization fallback) for object bodies. No clause inspects a 50603
code. -/
theorem isBusyError_eq_softBlockSpec (e : UpstreamError) :
    isBusyError e = softBlockSpec e := by
  unfold isBusyError softBlockSpec
  obtain ⟨resp, code, msg⟩ := e
  rcases resp with _ | ⟨status, data⟩
  · rfl
  · rcases data with _ | d
    · rfl
    · cases d with
      | jnull => rfl
      | jbool b => cases b <;> rfl
      | jnum n =>
        cases ht : JVal.truthy (.jnum n) <;> simp [ht, busyProbeText]
      | jstr s =>
        cases ht : JVal.truthy (.jstr s) <;> simp [ht, busyProbeText]
      | jarr xs =>
        have : respTextObj (.jarr xs) = JVal.jsonStringify (.jarr xs) := rfl
        simp [JVal.truthy, this, busyProbeText]
      | jobj fs =>
        simp [JVal.truthy, respTextObj_eq_probe fs]

/-- Concrete failing response whose body is the object with the single
numeric field `code = 50603` (the upstream soft-block code). -/
def err50603 : UpstreamError :=
  { response := some { status := 503, data := some (.jobj [("code", .jnum 50603)]) } }

/-- C2 counterexample: a response body containing the numeric code 50603
(and no "busy" text) is NOT classified as a soft-block by the detector —
the 50603 code is only consulted by the fan-out trigger `shouldUseProxy` —
refuting the claimed "or contains a numeric code equal to 50603"
disjunct. -/
theorem err50603_not_soft_block :
    isBusyError err50603 = false ∧ shouldUseProxy err50603 = true := by
  constructor <;> rfl

/-! ## Claim theorems: the key selector -/

/-- Pointwise-equal functions find the same first hit. -/
theorem findSome?_congr {α β : Type} (f g : α → Option β) :
    ∀ (l : List α), (∀ a ∈ l, f a = g a) → l.findSome? f = l.findSome? g := by
  intro l
  induction l with
  | nil => intro _; rfl
  | cons a tl ih =>
    intro h
    rw [List.findSome?_cons, List.findSome?_cons, h a (by simp)]
    cases g a <;> simp [ih (fun x hx => h x (by simp [hx]))]

/-- An index-driven scan over all positions of a list returning the first
element satisfying `p` is `List.find?`. -/
theorem findSome?_index_eq_find? {α : Type} (p : α → Bool) :
    ∀ (m : List α),
      (List.range m.length).findSome? (fun i =>
        match m.get? i with
        | some x => if p x then some x else none
        | none => none) = m.find? p := by
  intro m
  induction m with
  | nil => rfl
  | cons a tl ih =>
    rw [List.length_cons, List.range_succ_eq_map, List.findSome?_cons]
    cases hp : p a
    · simp only [List.get?_cons_zero, hp, if_false]
      rw [List.findSome?_map]
      have hcomp : ((fun i =>
          match (a :: tl).get? i with
          | some x => if p x then some x else none
          | none => none) ∘ Nat.succ) = (fun i =>
          match tl.get? i with
          | some x => if p x then some x else none
          | none => none) := by
        funext i
        simp [Function.comp, List.get?_cons_succ]
      rw [hcomp, ih]
      simp [hp, List.find?]
    · simp only [List.get?_cons_zero, hp, if_true]
      simp [hp, List.find?]

/-- The modular index loop of `switchToNextApiKey` equals a `find?` over
the list rotated to the start position. -/
theorem scanLoop_eq_rotate_find (reg : Registry) (l : List Nat) (start : Nat) :
    scanLoop reg l start = (l.rotate start).find? (keyIsActive reg) := by
  unfold scanLoop
  rw [← findSome?_index_eq_find? (keyIsActive reg) (l.rotate start),
      List.length_rotate]
  apply findSome?_congr
  intro i hi
  have hlt : i < l.length := List.mem_range.mp hi
  rw [List.get?_rotate (by simpa [List.length_rotate] using hlt), Nat.add_comm i start]
  cases l.get? ((start + i) % l.length) <;> rfl

/-- C5: on a stable registry (the cached list is the registry's available
list, ordered by creation ascending) and a nonempty cached list,
`switchToNextApiKey` returns exactly the first credential with status
`active` in the wrap-around order that starts just after the cursor
position (one full rotation at most), and when no listed credential is
active it returns none and clears the cursor. -/
theorem switchToNextApiKey_scan_spec (reg : Registry) (s : SelState)
    (hne : s.activeApiKeys ≠ [])
    (hstable : s.activeApiKeys = getActiveApiKeys reg) :
    ((switchToNextApiKey reg s).1 =
      (s.activeApiKeys.rotate (nextStart s)).find? (keyIsActive reg))
    ∧ ((s.activeApiKeys.rotate (nextStart s)).find? (keyIsActive reg) = none →
      (switchToNextApiKey reg s).2.currentApiKeyId = none) := by
  have hempty : s.activeApiKeys.isEmpty = false := by
    cases h : s.activeApiKeys with
    | nil => exact absurd h hne
    | cons a tl => rfl
  unfold switchToNextApiKey
  rw [hempty]
  simp only [Bool.false_eq_true, if_false, scanLoop_eq_rotate_find]
  cases hf : (s.activeApiKeys.rotate (nextStart s)).find? (keyIsActive reg) <;>
    simp [hf, hempty]

/-- Two-credential registry used to witness the selector claim. -/
def demoSelReg : Registry := [(1, { api_key := "k1" }), (2, { api_key := "k2" })]

/-- C5 witness: advancing from cursor 1 over the stable list [1, 2]
returns credential 2, matching the rotated-scan characterization. -/
theorem switchToNextApiKey_scan_spec_witness :
    (([1, 2] : List Nat) ≠ [])
    ∧ ([1, 2] = getActiveApiKeys demoSelReg)
    ∧ ((switchToNextApiKey demoSelReg { activeApiKeys := [1, 2], currentApiKeyId := some 1 }).1 =
        (([1, 2] : List Nat).rotate
          (nextStart { activeApiKeys := [1, 2], currentApiKeyId := some 1 })).find?
          (keyIsActive demoSelReg)) := by
  exact ⟨by decide, rfl,
    (switchToNextApiKey_scan_spec demoSelReg
      { activeApiKeys := [1, 2], currentApiKeyId := some 1 } (by decide) rfl).1⟩

/-! ## Claim theorems: the global block check -/

/-- `pickLatest` over a nonempty accumulator always yields a record. -/
theorem pickLatest_some : ∀ (l : List BlockRec) (a : BlockRec),
    ∃ b, pickLatest (some a) l = some b := by
  intro l
  induction l with
  | nil => intro a; exact ⟨a, rfl⟩
  | cons r rest ih => intro a; simpa [pickLatest] using ih _

/-- The record chosen by `pickLatest` is the accumulator or a list member. -/
theorem pickLatest_mem : ∀ (l : List BlockRec) (a b : BlockRec),
    pickLatest (some a) l = some b → b = a ∨ b ∈ l := by
  intro l
  induction l with
  | nil =>
    intro a b h
    simp [pickLatest] at h
    exact Or.inl h.symm
  | cons r rest ih =>
    intro a b h
    simp only [pickLatest] at h
    rcases ih _ b h with h1 | h1
    · by_cases hc : a.blockedAt < r.blockedAt
      · rw [if_pos hc] at h1
        exact Or.inr (h1 ▸ List.mem_cons_self r rest)
      · rw [if_neg hc] at h1
        exact Or.inl h1
    · exact Or.inr (List.mem_cons_of_mem _ h1)

/-- If some block record is still active, `isIpBlocked` returns an active
record (the `unblock_at > CURRENT_TIMESTAMP ... LIMIT 1` row). -/
theorem isIpBlocked_active (bl : List BlockRec) (now : Nat)
    (h : ∃ r ∈ bl, now < r.unblockAt) :
    ∃ b, isIpBlocked bl now = some b ∧ now < b.unblockAt := by
  obtain ⟨r, hr, hlt⟩ := h
  have hmem : r ∈ bl.filter (fun x => decide (now < x.unblockAt)) :=
    List.mem_filter.mpr ⟨hr, by simpa using hlt⟩
  rcases hfl : bl.filter (fun x => decide (now < x.unblockAt)) with _ | ⟨x, xs⟩
  · rw [hfl] at hmem; exact absurd hmem (List.not_mem_nil r)
  · obtain ⟨b, hb⟩ := pickLatest_some xs x
    refine ⟨b, ?_, ?_⟩
    · unfold isIpBlocked
      rw [hfl]
      simpa [pickLatest] using hb
    · have hbmem : b ∈ x :: xs := by
        rcases pickLatest_mem xs x b hb with h1 | h1
        · exact h1 ▸ List.mem_cons_self x xs
        · exact List.mem_cons_of_mem _ h1
      have : b ∈ bl.filter (fun y => decide (now < y.unblockAt)) := by
        rw [hfl]; exact hbmem
      have := List.mem_filter.mp this
      simpa using this.2

/-- C1: when a block record with unblock time strictly in the future exists
as `forward` begins, the engine answers with the structured 503
`ip_blocked` response carrying that record's `unblock_at` and the computed
`remaining_minutes`, leaves the state untouched, and its trace gains no
event at all — in particular no upstream chat dispatch and no balance
probe. -/
theorem forward_blocked (env : Env) (st0 : EngSt)
    (h : ∃ r ∈ st0.blacklist, env.now < r.unblockAt) :
    (∃ b, isIpBlocked st0.blacklist env.now = some b ∧ env.now < b.unblockAt ∧
      forward env st0 = (.ipBlocked b.unblockAt (remainingMinutes env.now b.unblockAt), st0))
    ∧ (forward env st0).2.trace = st0.trace := by
  obtain ⟨b, hb, hlt⟩ := isIpBlocked_active _ _ h
  have hfwd : forward env st0 = (.ipBlocked b.unblockAt (remainingMinutes env.now b.unblockAt), st0) := by
    unfold forward
    rw [hb]
  exact ⟨⟨b, hb, hlt, hfwd⟩, by rw [hfwd]⟩

/-- Environment fixture: a healthy upstream, no proxies, no disconnects. -/
def demoEnv : Env :=
  { now := 1000000, proxyEnabled := false, proxyConfigs := [],
    autoQueryThreshold := 0,
    chatOracle := fun _ => .ok,
    proxyOracle := fun _ => false,
    probeOracle := fun _ => { success := true, balance := some 10 },
    discSchedule := fun _ => false }

/-- State fixture: one active credential, empty history. -/
def demoSt : EngSt :=
  { reg := [(1, { api_key := "sk-aaaaaaaabbbbccccdddd" })],
    sel := { activeApiKeys := [1], currentApiKeyId := none },
    blacklist := [], dbPin := none, modId := none, modExp := none,
    trace := [], disc := false, nChecks := 0, nChat := 0, nProxy := 0, nProbe := 0 }

/-- C1 witness: with an active block record (unblock at 2000000, now
1000000) the handler responds from the block check and the trace stays
empty. -/
theorem forward_blocked_witness :
    (∃ r ∈ ({ demoSt with
        blacklist := [⟨900000, 2000000, "blocked"⟩] } : EngSt).blacklist,
      demoEnv.now < r.unblockAt)
    ∧ (forward demoEnv { demoSt with
        blacklist := [⟨900000, 2000000, "blocked"⟩] }).2.trace =
      ({ demoSt with blacklist := [⟨900000, 2000000, "blocked"⟩] } : EngSt).trace := by
  have h : ∃ r ∈ ({ demoSt with
      blacklist := [⟨900000, 2000000, "blocked"⟩] } : EngSt).blacklist,
      demoEnv.now < r.unblockAt :=
    ⟨⟨900000, 2000000, "blocked"⟩, by simp [demoSt], by decide⟩
  exact ⟨h, (forward_blocked demoEnv _ h).2⟩

/-- C6 witness: a credential with unknown balance stays available after the
re-check. -/
theorem checkAndUpdateAvailability_rule_witness :
    ({ api_key := "k", balance := none } : KeyRec).balance = none
    ∧ effAvailable (checkAndUpdateAvailability { api_key := "k", balance := none }) = true := by
  exact ⟨rfl, (checkAndUpdateAvailability_rule { api_key := "k", balance := none }).2 rfl⟩

/-! ## Claim theorems: the outbound-proxy pin -/

/-- A successful fan-out leaves the pin set to the succeeding proxy with a
60-minute expiry. -/
theorem fanOut_success_pins (env : Env) :
    ∀ (cfgs : List ProxyCfg) (st : EngSt) (pid : Nat),
      (fanOut env st cfgs).1 = .success pid →
      (fanOut env st cfgs).2.dbPin = some (pid, env.now + 60 * 60 * 1000) := by
  intro cfgs
  induction cfgs with
  | nil =>
    intro st pid h
    simp [fanOut] at h
  | cons p rest ih =>
    intro st pid h
    by_cases ha : agentOk p
    · rw [fanOut, ha] at h ⊢
      simp only [Bool.not_true, Bool.false_eq_true, if_false] at h ⊢
      cases ho : env.proxyOracle st.nProxy
      · rw [attemptProxy] at h ⊢
        simp only [ho, Bool.false_eq_true, if_false] at h ⊢
        exact ih _ _ h
      · rw [attemptProxy] at h ⊢
        simp only [ho, if_true] at h ⊢
        cases h
        rfl
    · rw [fanOut] at h ⊢
      simp only [Bool.not_eq_true'] at *
      rw [if_pos (by simp [ha])] at h ⊢
      exact ih _ _ h

/-- C7 (amended): with outbound-proxy mode enabled and the in-memory expiry
mirror in sync with the persisted pin (the steady state after any pin read
or write in this process): an expired pin is cleared on read and never
attempted — dispatch proceeds directly to the fan-out from the cleared
state; a valid (unexpired) pin is attempted first and on success the
response is returned with the pin kept; on failure through the pinned
proxy the pin is cleared and the configured list (as ordered by the
registry query) is fanned out; and whichever fan-out proxy succeeds first
becomes the new pin expiring 60 minutes from now. Immediately after
process start the mirror may be empty, and then one stale persisted pin
can be attempted once (see the counterexample). -/
theorem tryProxyRequest_pin_protocol (env : Env) (st : EngSt) (pid exp : Nat)
    (henabled : env.proxyEnabled = true)
    (hpin : st.dbPin = some (pid, exp))
    (hsync : st.modExp = some exp)
    (hpid : pid ≠ 0) :
    (exp < env.now →
      tryProxyRequestEng env st =
        fanOut env { st with dbPin := none, modId := none, modExp := none } env.proxyConfigs)
    ∧ (∀ p, env.now ≤ exp → env.proxyConfigs.find? (fun q => q.id = pid) = some p →
        agentOk p = true → env.proxyOracle st.nProxy = true →
        tryProxyRequestEng env st = (.success pid,
          { st with modId := some pid, modExp := some exp,
                    nProxy := st.nProxy + 1,
                    trace := st.trace ++ [{ kind := .proxyAttempt pid, disc := st.disc }] }))
    ∧ (∀ p, env.now ≤ exp → env.proxyConfigs.find? (fun q => q.id = pid) = some p →
        agentOk p = true → env.proxyOracle st.nProxy = false →
        tryProxyRequestEng env st =
          fanOut env { st with dbPin := none, modId := none, modExp := none,
                               nProxy := st.nProxy + 1,
                               trace := st.trace ++ [{ kind := .proxyAttempt pid, disc := st.disc }] }
            env.proxyConfigs)
    ∧ (∀ (cfgs : List ProxyCfg) (st2 : EngSt) (pid2 : Nat),
        (fanOut env st2 cfgs).1 = .success pid2 →
        (fanOut env st2 cfgs).2.dbPin = some (pid2, env.now + 60 * 60 * 1000)) := by
  refine ⟨?_, ?_, ?_, fanOut_success_pins env⟩
  · intro hexp
    unfold tryProxyRequestEng getActiveProxyEng
    simp [henabled, hsync, hpin, hexp]
  · intro p hle hfind hagent horacle
    have hpide : p.id = pid := by
      have := List.find?_some hfind
      simpa using this
    unfold tryProxyRequestEng getActiveProxyEng attemptProxy
    simp [henabled, hsync, hpin, hpid, Nat.not_lt.mpr hle, hfind, hagent, horacle, emit, hpide]
  · intro p hle hfind hagent horacle
    have hpide : p.id = pid := by
      have := List.find?_some hfind
      simpa using this
    unfold tryProxyRequestEng getActiveProxyEng attemptProxy clearActiveProxyEng
    simp [henabled, hsync, hpin, hpid, Nat.not_lt.mpr hle, hfind, hagent, horacle, emit, hpide]

/-- Proxy environment fixture: one HTTP proxy with id 7, every proxy
attempt succeeding. -/
def pinEnv : Env :=
  { demoEnv with
    proxyEnabled := true
    proxyConfigs := [⟨7, "http", "h", 1⟩]
    proxyOracle := fun _ => true }

/-- Synced state fixture: pin on proxy 7 already expired (expiry 5). -/
def pinSyncSt : EngSt :=
  { demoSt with dbPin := some (7, 5), modId := some 7, modExp := some 5 }

/-- C7 witness: with the mirror populated, the expired pin is cleared on
read and dispatch proceeds to the fan-out from the cleared state. -/
theorem tryProxyRequest_pin_protocol_witness :
    pinEnv.proxyEnabled = true
    ∧ pinSyncSt.dbPin = some (7, 5)
    ∧ pinSyncSt.modExp = some 5
    ∧ (7 : Nat) ≠ 0
    ∧ (5 < pinEnv.now →
        tryProxyRequestEng pinEnv pinSyncSt =
          fanOut pinEnv { pinSyncSt with dbPin := none, modId := none, modExp := none }
            pinEnv.proxyConfigs) := by
  exact ⟨rfl, rfl, rfl, by decide,
    (tryProxyRequest_pin_protocol pinEnv pinSyncSt 7 5 rfl rfl rfl (by decide)).1⟩

/-- Stale state fixture: persisted pin on proxy 7 expired at time 5, but
the in-memory mirror is still empty (fresh process). -/
def staleSt : EngSt := { demoSt with dbPin := some (7, 5) }

/-- C7 counterexample: right after process start (mirror empty), the
expired persisted pin IS used — `tryProxyRequest` attempts the expired
pinned proxy 7 and returns its response — refuting the claimed invariant
that an expired pin is never used. -/
theorem expired_pin_used_after_restart :
    (5 : Nat) < pinEnv.now
    ∧ tryProxyRequestEng pinEnv staleSt =
        (.success 7, { staleSt with
          modId := some 7
          modExp := some 5
          nProxy := 1
          trace := [{ kind := .proxyAttempt 7, disc := false }] }) := by
  constructor
  · decide
  · rfl

/-! ## State-preservation toolkit for the engine proofs -/

/-- The engine-core components untouched by the proxy machinery. -/
def coreOf (st : EngSt) : Registry × SelState × List BlockRec × Bool × Nat × Nat :=
  (st.reg, st.sel, st.blacklist, st.disc, st.nChat, st.nProbe)

/-- Unpack a `coreOf` equation into field equations. -/
theorem core_fields {st' st : EngSt} (h : coreOf st' = coreOf st) :
    st'.reg = st.reg ∧ st'.sel = st.sel ∧ st'.blacklist = st.blacklist
    ∧ st'.disc = st.disc ∧ st'.nChat = st.nChat ∧ st'.nProbe = st.nProbe := by
  simp [coreOf, Prod.mk.injEq] at h
  exact ⟨h.1, h.2.1, h.2.2.1, h.2.2.2.1, h.2.2.2.2.1, h.2.2.2.2.2⟩

/-- The fan-out only touches the pin, the proxy counter and the trace. -/
theorem coreOf_fanOut (env : Env) : ∀ (cfgs : List ProxyCfg) (st : EngSt),
    coreOf (fanOut env st cfgs).2 = coreOf st := by
  intro cfgs
  induction cfgs with
  | nil => intro st; rfl
  | cons p rest ih =>
    intro st
    by_cases ha : agentOk p
    · rw [fanOut, ha]
      simp only [Bool.not_true, Bool.false_eq_true, if_false]
      rw [attemptProxy]
      cases ho : env.proxyOracle st.nProxy
      · simp only [Bool.false_eq_true, if_false]
        rw [ih]
        rfl
      · simp only [if_true]
        rfl
    · rw [fanOut, if_pos (by simp_all)]
      exact ih _

/-- Reading the active pin only touches the pin fields. -/
theorem coreOf_getActive (env : Env) (st : EngSt) :
    coreOf (getActiveProxyEng env st).2 = coreOf st := by
  unfold getActiveProxyEng
  rcases st.modExp with _ | exp <;> rcases hpin : st.dbPin with _ | ⟨pid, pexp⟩ <;>
    simp [hpin, coreOf] <;> (try split) <;> (try simp [coreOf]) <;> (try split) <;> simp [coreOf]

/-- `tryProxyRequest` only touches the pin, the proxy counter and the
trace: registry, selector, block list, disconnect flag and the other
oracle counters are preserved. -/
theorem coreOf_tryProxy (env : Env) (st : EngSt) :
    coreOf (tryProxyRequestEng env st).2 = coreOf st := by
  unfold tryProxyRequestEng
  by_cases he : env.proxyEnabled
  · simp only [he, Bool.not_true, Bool.false_eq_true, if_false]
    have hg := coreOf_getActive env st
    rcases hap : (getActiveProxyEng env st).1 with _ | p <;> simp only []
    · rw [coreOf_fanOut]
      exact hg
    · by_cases ha : agentOk p
      · simp only [ha, if_true]
        cases ho : (attemptProxy env (getActiveProxyEng env st).2 p.id).1
        · simp only [Bool.false_eq_true, if_false]
          rw [coreOf_fanOut]
          calc coreOf (clearActiveProxyEng (attemptProxy env (getActiveProxyEng env st).2 p.id).2)
              = coreOf (getActiveProxyEng env st).2 := rfl
            _ = coreOf st := hg
        · simp only [if_true]
          calc coreOf (attemptProxy env (getActiveProxyEng env st).2 p.id).2
              = coreOf (getActiveProxyEng env st).2 := rfl
            _ = coreOf st := hg
      · simp only [ha, Bool.false_eq_true, if_false]
        rw [coreOf_fanOut]
        exact hg
  · simp [he]

/-- With every fan-out attempt failing, the fan-out fails as a whole. -/
theorem fanOut_allFailed_of (env : Env) (hp : ∀ n, env.proxyOracle n = false) :
    ∀ (cfgs : List ProxyCfg) (st : EngSt), (fanOut env st cfgs).1 = .allFailed := by
  intro cfgs
  induction cfgs with
  | nil => intro st; rfl
  | cons p rest ih =>
    intro st
    by_cases ha : agentOk p
    · rw [fanOut, ha]
      simp only [Bool.not_true, Bool.false_eq_true, if_false]
      rw [attemptProxy]
      simp only [hp, Bool.false_eq_true, if_false]
      exact ih _
    · rw [fanOut, if_pos (by simp_all)]
      exact ih _

/-- With every fan-out attempt failing, `tryProxyRequest` never reports a
proxy success. -/
theorem tryProxy_notSuccess (env : Env) (hp : ∀ n, env.proxyOracle n = false) (st : EngSt) :
    ∀ pid, (tryProxyRequestEng env st).1 ≠ .success pid := by
  intro pid
  unfold tryProxyRequestEng
  by_cases he : env.proxyEnabled
  · simp only [he, Bool.not_true, Bool.false_eq_true, if_false]
    rcases hap : (getActiveProxyEng env st).1 with _ | p <;> simp only []
    · rw [fanOut_allFailed_of env hp]
      simp
    · by_cases ha : agentOk p
      · simp only [ha, if_true]
        have hco : (attemptProxy env (getActiveProxyEng env st).2 p.id).1 = false := by
          rw [attemptProxy]
          exact hp _
        rw [hco]
        simp only [Bool.false_eq_true, if_false]
        rw [fanOut_allFailed_of env hp]
        simp
      · simp only [ha, Bool.false_eq_true, if_false]
        rw [fanOut_allFailed_of env hp]
        simp
  · simp [he]

theorem gA_reg (env : Env) (st : EngSt) : (getActiveProxyEng env st).2.reg = st.reg :=
  (core_fields (coreOf_getActive env st)).1

theorem gA_sel (env : Env) (st : EngSt) : (getActiveProxyEng env st).2.sel = st.sel :=
  (core_fields (coreOf_getActive env st)).2.1

theorem gA_blacklist (env : Env) (st : EngSt) :
    (getActiveProxyEng env st).2.blacklist = st.blacklist :=
  (core_fields (coreOf_getActive env st)).2.2.1

theorem gA_disc (env : Env) (st : EngSt) : (getActiveProxyEng env st).2.disc = st.disc :=
  (core_fields (coreOf_getActive env st)).2.2.2.1

theorem gA_nChat (env : Env) (st : EngSt) : (getActiveProxyEng env st).2.nChat = st.nChat :=
  (core_fields (coreOf_getActive env st)).2.2.2.2.1

theorem gA_nProbe (env : Env) (st : EngSt) : (getActiveProxyEng env st).2.nProbe = st.nProbe :=
  (core_fields (coreOf_getActive env st)).2.2.2.2.2

theorem tP_reg (env : Env) (st : EngSt) : (tryProxyRequestEng env st).2.reg = st.reg :=
  (core_fields (coreOf_tryProxy env st)).1

theorem tP_sel (env : Env) (st : EngSt) : (tryProxyRequestEng env st).2.sel = st.sel :=
  (core_fields (coreOf_tryProxy env st)).2.1

theorem tP_blacklist (env : Env) (st : EngSt) :
    (tryProxyRequestEng env st).2.blacklist = st.blacklist :=
  (core_fields (coreOf_tryProxy env st)).2.2.1

theorem tP_disc (env : Env) (st : EngSt) : (tryProxyRequestEng env st).2.disc = st.disc :=
  (core_fields (coreOf_tryProxy env st)).2.2.2.1

theorem tP_nChat (env : Env) (st : EngSt) : (tryProxyRequestEng env st).2.nChat = st.nChat :=
  (core_fields (coreOf_tryProxy env st)).2.2.2.2.1

theorem tP_nProbe (env : Env) (st : EngSt) : (tryProxyRequestEng env st).2.nProbe = st.nProbe :=
  (core_fields (coreOf_tryProxy env st)).2.2.2.2.2

/-! ## Claim theorems: the soft-block short circuit -/

/-- Closed form of the soft-block branch when the client never
disconnects: insert the 30-minute block record and answer the 503. -/
theorem busyBranch_resp (env : Env) (st : EngSt)
    (hdisc : st.disc = false)
    (hsched : ∀ n, env.discSchedule n = false) :
    busyBranch env st =
      (.respond (.ipBlocked (env.now + 30 * 60 * 1000) 30),
        { emit { st with
            blacklist := st.blacklist ++ [⟨env.now, env.now + 30 * 60 * 1000, busyBlockReason⟩],
            nChecks := st.nChecks + 1 }
            (.blockWrite (env.now + 30 * 60 * 1000) busyBlockReason) with
          nChecks := st.nChecks + 2 }) := by
  rw [busyBranch, check]
  simp only [hdisc, hsched, Bool.or_false, Bool.false_eq_true, if_false, Bool.not_false, if_true]
  rw [blockIpEng]
  simp only [emit]
  rw [check]
  simp only [hsched, Bool.or_false, Bool.false_eq_true, Bool.not_false, if_true, emit]

/-- The catch block on a busy-classified error with no disconnect and a
fully failing fan-out: immediate 503 `ip_blocked`, block record appended,
registry, selector and the chat/probe counters untouched. -/
theorem failBranch_soft_block (env : Env) (st : EngSt) (kid retryCount : Nat)
    (lastErr : Option Nat) (e : UpstreamError)
    (hdisc : st.disc = false)
    (hsched : ∀ n, env.discSchedule n = false)
    (hbusy : isBusyError e = true)
    (hproxy : ∀ n, env.proxyOracle n = false) :
    ∃ st', failBranch env st kid retryCount lastErr e =
        .inl (.respond (.ipBlocked (env.now + 30 * 60 * 1000) 30), st')
      ∧ st'.blacklist = st.blacklist ++ [⟨env.now, env.now + 30 * 60 * 1000, busyBlockReason⟩]
      ∧ st'.sel = st.sel ∧ st'.reg = st.reg ∧ st'.nChat = st.nChat ∧ st'.nProbe = st.nProbe := by
  rw [failBranch, check]
  simp only [hdisc, hsched, Bool.or_false, Bool.false_eq_true, if_false]
  by_cases hc : (env.proxyEnabled && shouldUseProxy e && decide (retryCount = 0)) = true
  · simp only [hc, if_true]
    rcases htp : (tryProxyRequestEng env { st with disc := false, nChecks := st.nChecks + 1 }).1
      with _ | pid | _
    · simp only [hbusy, if_true]
      rw [busyBranch_resp env _ (by rw [tP_disc]) hsched]
      refine ⟨_, rfl, ?_, ?_, ?_, ?_⟩ <;>
        simp [emit, tP_blacklist, tP_sel, tP_reg, tP_nChat, tP_nProbe]
    · exact absurd htp (tryProxy_notSuccess env hproxy _ pid)
    · simp only [hbusy, if_true]
      rw [busyBranch_resp env _ (by rw [tP_disc]) hsched]
      refine ⟨_, rfl, ?_, ?_, ?_, ?_⟩ <;>
        simp [emit, tP_blacklist, tP_sel, tP_reg, tP_nChat, tP_nProbe]
  · simp only [hc, Bool.false_eq_true, if_false]
    rw [hbusy]
    simp only [if_true]
    rw [busyBranch_resp env _ rfl hsched]
    refine ⟨_, rfl, ?_, ?_, ?_, ?_⟩ <;> simp [emit]

/-- The dispatch outcome is the chat oracle at the pre-dispatch counter. -/
theorem aC_out (env : Env) (st : EngSt) (kid : Nat) :
    (attemptChat env st kid).1 = env.chatOracle st.nChat := by
  rw [attemptChat]
  simp [gA_nChat]

theorem aC_disc (env : Env) (st : EngSt) (kid : Nat) :
    (attemptChat env st kid).2.disc = st.disc := by
  rw [attemptChat]
  simp [emit, gA_disc]

theorem aC_reg (env : Env) (st : EngSt) (kid : Nat) :
    (attemptChat env st kid).2.reg = st.reg := by
  rw [attemptChat]
  simp [emit, gA_reg]

theorem aC_sel (env : Env) (st : EngSt) (kid : Nat) :
    (attemptChat env st kid).2.sel = st.sel := by
  rw [attemptChat]
  simp [emit, gA_sel]

theorem aC_blacklist (env : Env) (st : EngSt) (kid : Nat) :
    (attemptChat env st kid).2.blacklist = st.blacklist := by
  rw [attemptChat]
  simp [emit, gA_blacklist]

theorem aC_nChat (env : Env) (st : EngSt) (kid : Nat) :
    (attemptChat env st kid).2.nChat = st.nChat + 1 := by
  rw [attemptChat]
  simp [emit, gA_nChat]

theorem aC_nProbe (env : Env) (st : EngSt) (kid : Nat) :
    (attemptChat env st kid).2.nProbe = st.nProbe := by
  rw [attemptChat]
  simp [emit, gA_nProbe]

/-- C3: when an attempt's failure is classified as a soft-block (busy) and
the proxy fan-out, if triggered, finds no working proxy, the engine
records a block record expiring now + 30 minutes with the reason text and
answers the 503 `ip_blocked` payload immediately: the selector cursor is
untouched (no credential rotation), the probe counter is untouched (no
balance probe), and exactly the one upstream chat dispatch happened (no
retry after the detection). -/
theorem retryLoop_soft_block (env : Env) (st : EngSt) (kid retryCount : Nat)
    (lastErr : Option Nat) (fuel : Nat) (e : UpstreamError)
    (hrc : retryCount ≤ 3)
    (hdisc : st.disc = false)
    (hsched : ∀ n, env.discSchedule n = false)
    (hout : env.chatOracle st.nChat = .fail e)
    (hbusy : isBusyError e = true)
    (hproxy : ∀ n, env.proxyOracle n = false) :
    (retryLoop env kid st retryCount lastErr (fuel + 1)).1 =
      .respond (.ipBlocked (env.now + 30 * 60 * 1000) 30)
    ∧ (retryLoop env kid st retryCount lastErr (fuel + 1)).2.blacklist =
      st.blacklist ++ [⟨env.now, env.now + 30 * 60 * 1000, busyBlockReason⟩]
    ∧ (retryLoop env kid st retryCount lastErr (fuel + 1)).2.sel = st.sel
    ∧ (retryLoop env kid st retryCount lastErr (fuel + 1)).2.reg = st.reg
    ∧ (retryLoop env kid st retryCount lastErr (fuel + 1)).2.nChat = st.nChat + 1
    ∧ (retryLoop env kid st retryCount lastErr (fuel + 1)).2.nProbe = st.nProbe := by
  obtain ⟨st', heq, c2, c3, c4, c5, c6⟩ :=
    failBranch_soft_block env
      (attemptChat env { st with disc := false, nChecks := st.nChecks + 1 + 1 } kid).2
      kid retryCount lastErr e
      (by rw [aC_disc]) hsched hbusy hproxy
  rw [retryLoop, if_pos (decide_eq_true hrc), check]
  simp only [hdisc, hsched, Bool.or_false, Bool.false_eq_true, if_false]
  rw [retryBody, check]
  simp only [hsched, Bool.or_false, Bool.false_eq_true, if_false]
  rw [aC_out]
  simp only []
  rw [show ({ st with disc := false, nChecks := st.nChecks + 1 } : EngSt).nChecks + 1 = st.nChecks + 1 + 1 from rfl]
  rw [hout]
  simp only []
  rw [heq]
  simp only []
  refine ⟨trivial, ?_, ?_, ?_, ?_, ?_⟩
  · rw [c2, aC_blacklist]
  · rw [c3, aC_sel]
  · rw [c4, aC_reg]
  · rw [c5, aC_nChat]
  · rw [c6, aC_nProbe]

/-- Upstream failure whose body text contains "busy". -/
def busyErr : UpstreamError :=
  { response := some
      { status := 503
        data := some (.jobj [("error", .jobj [("message", .jstr "Service busy, try later")])]) } }

/-- Environment fixture whose upstream always answers the busy error. -/
def busyEnvW : Env := { demoEnv with chatOracle := fun _ => .fail busyErr }

/-- C3 witness: on the one-credential fixture the busy failure produces
the immediate 503 `ip_blocked` response. -/
theorem retryLoop_soft_block_witness :
    (0 : Nat) ≤ 3
    ∧ demoSt.disc = false
    ∧ (∀ n, busyEnvW.discSchedule n = false)
    ∧ busyEnvW.chatOracle demoSt.nChat = .fail busyErr
    ∧ isBusyError busyErr = true
    ∧ (∀ n, busyEnvW.proxyOracle n = false)
    ∧ (retryLoop busyEnvW 1 demoSt 0 none 4).1 =
        .respond (.ipBlocked (busyEnvW.now + 30 * 60 * 1000) 30) := by
  refine ⟨by decide, rfl, fun n => rfl, rfl, by decide, fun n => rfl, ?_⟩
  exact (retryLoop_soft_block busyEnvW demoSt 1 0 none 3 busyErr (by decide) rfl
    (fun n => rfl) rfl (by decide) (fun n => rfl)).1

/-! ## Trace discipline: every recorded action carries the disconnect flag -/

/-- All events of a trace were recorded while the client was still
considered connected. -/
def TraceClean (tr : List Event) : Prop := ∀ ev ∈ tr, ev.disc = false

/-- The credential id of a chat dispatch event. -/
def chatOf (ev : Event) : Option Nat :=
  match ev.kind with
  | .chatDispatch i _ => some i
  | _ => none

/-- The sequence of credential ids dispatched to upstream chat, in order. -/
def dispatches (tr : List Event) : List Nat := tr.filterMap chatOf

/-- State carried by an early-exit-or-continue value. -/
def sumSt {α : Type} : Sum (α × EngSt) EngSt → EngSt
  | .inl r => r.2
  | .inr s => s

/-- State carried by a `keyStep` result. -/
def ksSt : Sum (Resp × EngSt) (EngSt × Nat × Option Nat) → EngSt
  | .inl r => r.2
  | .inr t => t.1

theorem dispatches_append (t1 t2 : List Event) :
    dispatches (t1 ++ t2) = dispatches t1 ++ dispatches t2 := by
  simp [dispatches]

theorem dispatches_nil_of {δ : List Event} (h : ∀ e ∈ δ, chatOf e = none) :
    dispatches δ = [] := by
  simp only [dispatches]
  induction δ with
  | nil => rfl
  | cons a l ih =>
    rw [List.filterMap_cons, h a (by simp)]
    exact ih (fun e he => h e (by simp [he]))

/-! ### Registry updates and the `active` predicate -/

theorem regUpdate_cons (a : Nat × KeyRec) (rest : Registry) (i : Nat)
    (f : KeyRec → KeyRec) :
    regUpdate (a :: rest) i f =
      (if a.1 = i then (a.1, f a.2) else a) :: regUpdate rest i f := rfl

theorem regLookup_cons (a : Nat × KeyRec) (rest : Registry) (j : Nat) :
    regLookup (a :: rest) j = if a.1 = j then some a.2 else regLookup rest j := by
  by_cases h : a.1 = j <;> simp [regLookup, List.find?_cons, h]

theorem regLookup_regUpdate_self (reg : Registry) (i : Nat) (f : KeyRec → KeyRec) :
    regLookup (regUpdate reg i f) i = (regLookup reg i).map f := by
  induction reg with
  | nil => rfl
  | cons a rest ih =>
    rw [regUpdate_cons, regLookup_cons, regLookup_cons]
    by_cases ha : a.1 = i
    · simp only [if_pos ha]
      simp [ha]
    · simp only [if_neg ha]
      simp [ha, ih]

theorem regLookup_regUpdate_ne (reg : Registry) (i j : Nat) (f : KeyRec → KeyRec)
    (h : j ≠ i) :
    regLookup (regUpdate reg i f) j = regLookup reg j := by
  induction reg with
  | nil => rfl
  | cons a rest ih =>
    rw [regUpdate_cons, regLookup_cons, regLookup_cons]
    by_cases hb : a.1 = i
    · have haj : ¬ a.1 = j := by rw [hb]; exact fun hh => h hh.symm
      simp only [if_pos hb]
      simp [haj, ih]
    · simp only [if_neg hb]
      by_cases ha : a.1 = j
      · simp [ha]
      · simp [ha, ih]

/-- A point update that does not touch the status column leaves the
selection predicate unchanged everywhere. -/
theorem keyIsActive_regUpdate (reg : Registry) (i k : Nat) (f : KeyRec → KeyRec)
    (hf : ∀ r, (f r).status = r.status) :
    keyIsActive (regUpdate reg i f) k = keyIsActive reg k := by
  unfold keyIsActive
  by_cases h : k = i
  · subst h
    rw [regLookup_regUpdate_self]
    rcases regLookup reg k with _ | r
    · rfl
    · simp [hf]
  · rw [regLookup_regUpdate_ne reg i k f h]

/-- Writing a non-active status makes the row non-selectable. -/
theorem keyIsActive_updateStatus_self (reg : Registry) (i : Nat) (s : KeyStatus)
    (err : Option String) (now : Nat) (hs : s ≠ .active) :
    keyIsActive (updateApiKeyStatusDb reg i s err now) i = false := by
  unfold keyIsActive updateApiKeyStatusDb
  rcases err with _ | e <;>
    · rw [regLookup_regUpdate_self]
      rcases regLookup reg i with _ | r
      · rfl
      · simp [hs]

/-- Writing a status only touches the addressed row. -/
theorem keyIsActive_updateStatus_other (reg : Registry) (i k : Nat) (s : KeyStatus)
    (err : Option String) (now : Nat) (hk : k ≠ i) :
    keyIsActive (updateApiKeyStatusDb reg i s err now) k = keyIsActive reg k := by
  unfold keyIsActive updateApiKeyStatusDb
  rcases err with _ | e <;> rw [regLookup_regUpdate_ne _ _ _ _ hk]

theorem TraceClean_append {t1 t2 : List Event}
    (h1 : TraceClean t1) (h2 : TraceClean t2) : TraceClean (t1 ++ t2) := by
  intro ev hev
  rcases List.mem_append.mp hev with h | h
  · exact h1 ev h
  · exact h2 ev h

/-! ### What each engine operation does to the trace and the registry -/

theorem mark_trace (env : Env) (st : EngSt) (i : Nat) (s : KeyStatus)
    (err : Option String) :
    (markApiKeyStatusEng env st i s err).trace = st.trace := by
  unfold markApiKeyStatusEng refreshEng
  split <;> rfl

theorem mark_disc (env : Env) (st : EngSt) (i : Nat) (s : KeyStatus)
    (err : Option String) :
    (markApiKeyStatusEng env st i s err).disc = st.disc := by
  unfold markApiKeyStatusEng refreshEng
  split <;> rfl

theorem mark_reg (env : Env) (st : EngSt) (i : Nat) (s : KeyStatus)
    (err : Option String) :
    (markApiKeyStatusEng env st i s err).reg =
      updateApiKeyStatusDb st.reg i s err env.now := by
  unfold markApiKeyStatusEng refreshEng
  split <;> rfl

theorem keyIsActive_mark_self (env : Env) (st : EngSt) (i : Nat) (s : KeyStatus)
    (err : Option String) (hs : s ≠ .active) :
    keyIsActive (markApiKeyStatusEng env st i s err).reg i = false := by
  rw [mark_reg]
  exact keyIsActive_updateStatus_self st.reg i s err env.now hs

theorem keyIsActive_mark_other (env : Env) (st : EngSt) (i k : Nat) (s : KeyStatus)
    (err : Option String) (hk : k ≠ i) :
    keyIsActive (markApiKeyStatusEng env st i s err).reg k = keyIsActive st.reg k := by
  rw [mark_reg]
  exact keyIsActive_updateStatus_other st.reg i k s err env.now hk

theorem keyIsActive_incr (env : Env) (st : EngSt) (i k : Nat) :
    keyIsActive (incrementCallCountEng env st i).reg k = keyIsActive st.reg k := by
  unfold incrementCallCountEng
  exact keyIsActive_regUpdate st.reg i k
    (fun r => { r with call_count := r.call_count + 1, last_used_at := some env.now })
    (fun r => rfl)

theorem keyIsActive_updBal (env : Env) (st : EngSt) (i k : Nat) (b : ℚ) :
    keyIsActive (updateBalanceEng env st i b).reg k = keyIsActive st.reg k := by
  unfold updateBalanceEng
  exact keyIsActive_regUpdate st.reg i k
    (fun r => { r with balance := some b, balance_checked_at := some env.now })
    (fun r => rfl)

theorem keyIsActive_updAvail (st : EngSt) (i k : Nat) (a : Bool) :
    keyIsActive (updateAvailabilityEng st i a).reg k = keyIsActive st.reg k := by
  unfold updateAvailabilityEng
  exact keyIsActive_regUpdate st.reg i k
    (fun r => { r with is_available := some a })
    (fun r => rfl)

theorem keyIsActive_restore (st : EngSt) (i k : Nat) :
    keyIsActive (restoreIfErrorEng st i).reg k = keyIsActive st.reg k := by
  unfold restoreIfErrorEng refreshEng
  rcases regLookup st.reg i with _ | r
  · rfl
  · simp only []
    split
    · exact keyIsActive_updAvail st i k true
    · rfl

theorem keyIsActive_cAU (st : EngSt) (i k : Nat) :
    keyIsActive (checkAndUpdateAvailabilityEng st i).reg k = keyIsActive st.reg k := by
  unfold checkAndUpdateAvailabilityEng refreshEng
  rcases regLookup st.reg i with _ | r
  · rfl
  · simp only []
    split
    · exact keyIsActive_regUpdate st.reg i k
        (fun j => { j with is_available := some false }) (fun j => rfl)
    · split
      · exact keyIsActive_regUpdate st.reg i k
          (fun j => { j with is_available := some true }) (fun j => rfl)
      · rfl

theorem cAU_trace (st : EngSt) (i : Nat) :
    (checkAndUpdateAvailabilityEng st i).trace = st.trace := by
  unfold checkAndUpdateAvailabilityEng refreshEng
  rcases regLookup st.reg i with _ | k
  · rfl
  · simp only []
    split
    · rfl
    · split <;> rfl

theorem cAU_disc (st : EngSt) (i : Nat) :
    (checkAndUpdateAvailabilityEng st i).disc = st.disc := by
  unfold checkAndUpdateAvailabilityEng refreshEng
  rcases regLookup st.reg i with _ | k
  · rfl
  · simp only []
    split
    · rfl
    · split <;> rfl

theorem restore_trace (st : EngSt) (i : Nat) :
    (restoreIfErrorEng st i).trace = st.trace := by
  unfold restoreIfErrorEng refreshEng updateAvailabilityEng
  rcases regLookup st.reg i with _ | k
  · rfl
  · simp only []
    split <;> rfl

theorem restore_disc (st : EngSt) (i : Nat) :
    (restoreIfErrorEng st i).disc = st.disc := by
  unfold restoreIfErrorEng refreshEng updateAvailabilityEng
  rcases regLookup st.reg i with _ | k
  · rfl
  · simp only []
    split <;> rfl

theorem gA_trace (env : Env) (st : EngSt) :
    (getActiveProxyEng env st).2.trace = st.trace := by
  unfold getActiveProxyEng
  rcases st.modExp with _ | exp <;> rcases hpin : st.dbPin with _ | ⟨pid, pexp⟩ <;>
    simp [hpin] <;> (try split) <;> (try simp) <;> (try split) <;> simp

theorem attemptProxy_trace (env : Env) (st : EngSt) (pid : Nat) :
    (attemptProxy env st pid).2.trace =
      st.trace ++ [{ kind := .proxyAttempt pid, disc := st.disc }] := rfl

theorem attemptProxy_disc (env : Env) (st : EngSt) (pid : Nat) :
    (attemptProxy env st pid).2.disc = st.disc := rfl

theorem probeBalance_trace (env : Env) (st : EngSt) (kid : Nat) :
    (probeBalance env st kid).2.trace =
      st.trace ++ [{ kind := .balanceProbe kid, disc := st.disc }] := rfl

theorem probeBalance_disc (env : Env) (st : EngSt) (kid : Nat) :
    (probeBalance env st kid).2.disc = st.disc := rfl

theorem probeBalance_reg (env : Env) (st : EngSt) (kid : Nat) :
    (probeBalance env st kid).2.reg = st.reg := rfl

theorem probeBalance_fst (env : Env) (st : EngSt) (kid : Nat) :
    (probeBalance env st kid).1 = env.probeOracle st.nProbe := rfl

theorem recordUsage_trace (st : EngSt) (i : Nat) (success : Bool) :
    (recordUsageEng st i success).trace =
      st.trace ++ [{ kind := .usageWrite i success, disc := st.disc }] := rfl

theorem blockIp_trace (env : Env) (st : EngSt) (reason : String) :
    (blockIpEng env st reason).trace =
      st.trace ++ [{ kind := .blockWrite (env.now + 30 * 60 * 1000) reason,
                     disc := st.disc }] := rfl

theorem attemptChat_trace (env : Env) (st : EngSt) (kid : Nat) :
    (attemptChat env st kid).2.trace = st.trace ++
      [{ kind := .chatDispatch kid ((getActiveProxyEng env st).1.map (fun p => p.id)),
         disc := st.disc }] := by
  rw [attemptChat]
  simp [emit, gA_trace, gA_disc]

theorem sE_trace (env : Env) (st : EngSt) (kid : Nat) :
    (successEpilogue env st kid).trace =
      st.trace ++ [{ kind := .usageWrite kid true, disc := st.disc }] := by
  unfold successEpilogue
  rw [restore_trace, recordUsage_trace]
  simp [incrementCallCountEng, mark_trace, mark_disc]

theorem sE_disc (env : Env) (st : EngSt) (kid : Nat) :
    (successEpilogue env st kid).disc = st.disc := by
  unfold successEpilogue
  rw [restore_disc]
  simp [recordUsageEng, emit, incrementCallCountEng, mark_disc]

/-- The fan-out appends only proxy-attempt events, all tagged with the
entry disconnect flag. -/
theorem fanOut_ext (env : Env) : ∀ (cfgs : List ProxyCfg) (st : EngSt),
    ∃ δ, (fanOut env st cfgs).2.trace = st.trace ++ δ ∧
      ∀ e ∈ δ, e.disc = st.disc ∧ chatOf e = none := by
  intro cfgs
  induction cfgs with
  | nil => intro st; exact ⟨[], by simp [fanOut], by simp⟩
  | cons p rest ih =>
    intro st
    by_cases ha : agentOk p
    · rw [fanOut, ha]
      simp only [Bool.not_true, Bool.false_eq_true, if_false]
      rw [attemptProxy]
      cases ho : env.proxyOracle st.nProxy
      · simp only [Bool.false_eq_true, if_false]
        obtain ⟨δ, hδ, hP⟩ := ih (emit { st with nProxy := st.nProxy + 1 } (.proxyAttempt p.id))
        refine ⟨{ kind := .proxyAttempt p.id, disc := st.disc } :: δ, ?_, ?_⟩
        · rw [hδ]
          simp [emit]
        · intro e he
          rcases List.mem_cons.mp he with h | h
          · rw [h]
            exact ⟨rfl, rfl⟩
          · simpa [emit] using hP e h
      · simp only [if_true]
        refine ⟨[{ kind := .proxyAttempt p.id, disc := st.disc }],
          by simp [setActiveProxyEng, emit], ?_⟩
        intro e he
        rcases List.mem_singleton.mp he with h
        rw [h]
        exact ⟨rfl, rfl⟩
    · rw [fanOut, if_pos (by simp_all)]
      exact ih st

/-- `tryProxyRequest` appends only proxy-attempt events, all tagged with
the entry disconnect flag. -/
theorem tP_ext (env : Env) (st : EngSt) :
    ∃ δ, (tryProxyRequestEng env st).2.trace = st.trace ++ δ ∧
      ∀ e ∈ δ, e.disc = st.disc ∧ chatOf e = none := by
  unfold tryProxyRequestEng
  by_cases he : env.proxyEnabled
  · simp only [he, Bool.not_true, Bool.false_eq_true, if_false]
    rcases hap : (getActiveProxyEng env st).1 with _ | p <;> simp only []
    · obtain ⟨δ, hδ, hP⟩ := fanOut_ext env env.proxyConfigs (getActiveProxyEng env st).2
      refine ⟨δ, by rw [hδ, gA_trace], fun e he2 => ?_⟩
      have := hP e he2
      rwa [gA_disc] at this
    · by_cases ha : agentOk p
      · simp only [ha, if_true]
        cases ho : (attemptProxy env (getActiveProxyEng env st).2 p.id).1
        · simp only [Bool.false_eq_true, if_false]
          obtain ⟨δ, hδ, hP⟩ := fanOut_ext env env.proxyConfigs
            (clearActiveProxyEng (attemptProxy env (getActiveProxyEng env st).2 p.id).2)
          refine ⟨{ kind := .proxyAttempt p.id, disc := st.disc } :: δ, ?_, ?_⟩
          · rw [hδ]
            have h1 : (clearActiveProxyEng (attemptProxy env (getActiveProxyEng env st).2 p.id).2).trace
                = st.trace ++ [{ kind := .proxyAttempt p.id, disc := st.disc }] := by
              show (attemptProxy env (getActiveProxyEng env st).2 p.id).2.trace
                = st.trace ++ [{ kind := .proxyAttempt p.id, disc := st.disc }]
              rw [attemptProxy_trace, gA_trace, gA_disc]
            rw [h1]
            simp
          · intro e he2
            rcases List.mem_cons.mp he2 with h | h
            · rw [h]
              exact ⟨rfl, rfl⟩
            · have := hP e h
              have hd : (clearActiveProxyEng (attemptProxy env (getActiveProxyEng env st).2 p.id).2).disc
                  = st.disc := by
                show (attemptProxy env (getActiveProxyEng env st).2 p.id).2.disc = st.disc
                rw [attemptProxy_disc, gA_disc]
              rwa [hd] at this
        · simp only [if_true]
          refine ⟨[{ kind := .proxyAttempt p.id, disc := st.disc }], ?_, ?_⟩
          · rw [attemptProxy_trace, gA_trace, gA_disc]
          · intro e he2
            rcases List.mem_singleton.mp he2 with h
            rw [h]
            exact ⟨rfl, rfl⟩
      · simp only [ha, Bool.false_eq_true, if_false]
        obtain ⟨δ, hδ, hP⟩ := fanOut_ext env env.proxyConfigs (getActiveProxyEng env st).2
        refine ⟨δ, by rw [hδ, gA_trace], fun e he2 => ?_⟩
        have := hP e he2
        rwa [gA_disc] at this
  · simp only [he]
    exact ⟨[], by simp, by simp⟩

/-- The auto balance query appends at most one probe event, tagged with
the entry disconnect flag. -/
theorem aQ_ext (env : Env) (st : EngSt) (kid : Nat) :
    ∃ δ, (autoQueryBalanceEng env st kid).trace = st.trace ++ δ ∧
      ∀ e ∈ δ, e.disc = st.disc ∧ chatOf e = none := by
  unfold autoQueryBalanceEng
  rcases regLookup st.reg kid with _ | k
  · exact ⟨[], by simp, by simp⟩
  · simp only []
    split
    · simp only [probeBalance_fst, probeBalance]
      refine ⟨[{ kind := .balanceProbe kid, disc := st.disc }], ?_, ?_⟩
      · split <;>
          (try split) <;>
          (try split) <;>
          (try split) <;>
          (try split) <;>
          (try split) <;>
          simp [refreshEng, updateAvailabilityEng, mark_trace, updateBalanceEng, emit]
      · intro e he
        rcases List.mem_singleton.mp he with h
        rw [h]
        exact ⟨rfl, rfl⟩
    · exact ⟨[], by simp, by simp⟩

theorem setCursor_trace (st : EngSt) (kid : Nat) :
    (setCursorEng st kid).trace = st.trace := rfl

theorem setCursor_reg (st : EngSt) (kid : Nat) :
    (setCursorEng st kid).reg = st.reg := rfl

theorem waitLoop_trace (env : Env) (kid : Nat) :
    ∀ (n : Nat) (st : EngSt), (waitLoop env st kid n).trace = st.trace := by
  intro n
  induction n with
  | zero => intro st; rfl
  | succ m ih =>
    intro st
    rw [waitLoop]
    simp only [check]
    split
    · rfl
    · rw [ih]
      rfl

theorem waitLoop_reg (env : Env) (kid : Nat) :
    ∀ (n : Nat) (st : EngSt), (waitLoop env st kid n).reg = st.reg := by
  intro n
  induction n with
  | zero => intro st; rfl
  | succ m ih =>
    intro st
    rw [waitLoop]
    simp only [check]
    split
    · rfl
    · rw [ih]
      rfl

/-- The cooperative wait neither emits events nor touches the registry,
and an early exit from it is always silent. -/
theorem retryWait_spec (env : Env) (st : EngSt) (kid : Nat) :
    (sumSt (retryWait env st kid)).trace = st.trace
    ∧ (sumSt (retryWait env st kid)).reg = st.reg
    ∧ ∀ r, retryWait env st kid = .inl r → r.1 = .silent := by
  unfold retryWait
  simp only [check]
  split
  · exact ⟨rfl, rfl, by intro r h; cases h; rfl⟩
  · split
    · refine ⟨?_, ?_, ?_⟩
      · simp [sumSt, waitLoop_trace, setCursorEng]
      · simp [sumSt, waitLoop_reg, setCursorEng]
      · intro r h
        cases h
        rfl
    · refine ⟨?_, ?_, ?_⟩
      · simp [sumSt, waitLoop_trace, setCursorEng]
      · simp [sumSt, waitLoop_reg, setCursorEng]
      · intro r h
        exact Sum.noConfusion h

/-- The guarded failure bookkeeping appends at most one usage event,
always recorded while connected, and only the addressed credential's
status can change. -/
theorem errorRecord_spec (env : Env) (st : EngSt) (kid : Nat) (e : UpstreamError) :
    (∃ δ, (errorRecord env st kid e).trace = st.trace ++ δ ∧
      ∀ ev ∈ δ, ev.disc = false ∧ chatOf ev = none)
    ∧ ∀ k, k ≠ kid → keyIsActive (errorRecord env st kid e).reg k
        = keyIsActive st.reg k := by
  unfold errorRecord
  simp only [check]
  split
  next h =>
    have hd : (st.disc || env.discSchedule st.nChecks) = false := by
      revert h
      cases st.disc || env.discSchedule st.nChecks <;> simp
    refine ⟨⟨[{ kind := .usageWrite kid false, disc := false }], ?_, ?_⟩, ?_⟩
    · rw [mark_trace, recordUsage_trace]
      simp [hd]
    · intro ev hev
      rcases List.mem_singleton.mp hev with h2
      rw [h2]
      exact ⟨rfl, rfl⟩
    · intro k hk
      rw [keyIsActive_mark_other env _ kid k _ _ hk]
      rfl
  next h =>
    exact ⟨⟨[], by simp, by simp⟩, fun k hk => rfl⟩

/-- Exhausted retries: no events, an `exited _ false` result, and either
the disconnect flag is up or the credential has been demoted; other
credentials' statuses are untouched. -/
theorem retryExhaust_spec (env : Env) (st : EngSt) (kid : Nat) (lastErr : Option Nat)
    (e : UpstreamError) :
    (retryExhaust env st kid lastErr e).2.trace = st.trace
    ∧ (∃ l, (retryExhaust env st kid lastErr e).1 = .exited l false)
    ∧ ((retryExhaust env st kid lastErr e).2.disc = true
        ∨ keyIsActive (retryExhaust env st kid lastErr e).2.reg kid = false)
    ∧ (∀ k, k ≠ kid → keyIsActive (retryExhaust env st kid lastErr e).2.reg k
        = keyIsActive st.reg k) := by
  unfold retryExhaust
  simp only [check]
  split
  next h =>
    refine ⟨?_, ⟨some kid, rfl⟩, Or.inr ?_, ?_⟩
    · rw [cAU_trace, mark_trace]
    · rw [keyIsActive_cAU]
      exact keyIsActive_mark_self env _ kid .error _ (by intro hh; cases hh)
    · intro k hk
      rw [keyIsActive_cAU, keyIsActive_mark_other env _ kid k _ _ hk]
  next h =>
    have hd : (st.disc || env.discSchedule st.nChecks) = true := by
      revert h
      cases st.disc || env.discSchedule st.nChecks <;> simp
    refine ⟨rfl, ⟨lastErr, rfl⟩, Or.inl ?_, fun k hk => rfl⟩
    simp [hd]

/-- The soft-block branch records at most a block event while connected,
never touches the registry, and never exits the retry loop silently into
a rotation (its result is a response or a silent return). -/
theorem busyBranch_spec (env : Env) (st : EngSt) :
    (∃ δ, (busyBranch env st).2.trace = st.trace ++ δ ∧
      ∀ ev ∈ δ, ev.disc = false ∧ chatOf ev = none)
    ∧ ((busyBranch env st).2.reg = st.reg)
    ∧ (∀ l ks, (busyBranch env st).1 ≠ .exited l ks) := by
  unfold busyBranch
  simp only [check]
  cases hd1 : st.disc || env.discSchedule st.nChecks with
  | false =>
    simp only [Bool.not_false, if_true, blockIpEng, emit]
    split <;>
      · refine ⟨⟨[⟨.blockWrite (env.now + 30 * 60 * 1000) busyBlockReason, false⟩],
          by simp, ?_⟩, by simp, by simp⟩
        intro ev hev
        rcases List.mem_singleton.mp hev with h2
        rw [h2]
        exact ⟨rfl, rfl⟩
  | true =>
    simp only [Bool.not_true, Bool.false_eq_true, if_false]
    split <;> exact ⟨⟨[], by simp, by simp⟩, by simp, by simp⟩

theorem afterKeyLoop_trace (env : Env) (st : EngSt) :
    (afterKeyLoop env st).2.trace = st.trace := by
  unfold afterKeyLoop
  simp only [check]
  split
  · rfl
  · split <;> rfl

theorem afterKeyLoopSuccess_trace (env : Env) (st : EngSt) :
    (afterKeyLoopSuccess env st).2.trace = st.trace := by
  unfold afterKeyLoopSuccess
  simp only [check]
  split <;> rfl

theorem updAvail_trace (st : EngSt) (i : Nat) (a : Bool) :
    (updateAvailabilityEng st i a).trace = st.trace := rfl

theorem updBal_trace (env : Env) (st : EngSt) (i : Nat) (b : ℚ) :
    (updateBalanceEng env st i b).trace = st.trace := rfl

/-- The pre-retry probe appends at most one probe event, recorded while
connected; an `exited` early exit means the credential was demoted; other
credentials' statuses are untouched. -/
theorem preRetryProbe_spec (env : Env) (st : EngSt) (kid : Nat) :
    (∃ δ, (sumSt (preRetryProbe env st kid)).trace = st.trace ++ δ ∧
      ∀ ev ∈ δ, ev.disc = false ∧ chatOf ev = none)
    ∧ (∀ r st2, preRetryProbe env st kid = .inl (r, st2) → ∀ l ks, r = .exited l ks →
        ks = false ∧ (st2.disc = true ∨ keyIsActive st2.reg kid = false))
    ∧ (∀ k, k ≠ kid → keyIsActive (sumSt (preRetryProbe env st kid)).reg k
        = keyIsActive st.reg k) := by
  unfold preRetryProbe
  simp only [check, probeBalance, emit]
  cases hd1 : st.disc || env.discSchedule st.nChecks with
  | true =>
    simp only [if_true]
    refine ⟨⟨[], by simp [sumSt], by simp⟩, ?_, fun k hk => rfl⟩
    intro r st2 h l ks hr
    cases h
    cases hr
  | false =>
    simp only [Bool.false_eq_true, if_false, Bool.false_or]
    cases hd2 : env.discSchedule (st.nChecks + 1) with
    | true =>
      simp only [if_true]
      refine ⟨⟨[⟨.balanceProbe kid, false⟩], by simp [sumSt], ?_⟩, ?_, fun k hk => rfl⟩
      · intro ev hev
        rcases List.mem_singleton.mp hev with h2
        rw [h2]
        exact ⟨rfl, rfl⟩
      · intro r st2 h l ks hr
        cases h
        cases hr
    | false =>
      simp only [Bool.false_eq_true, if_false]
      rcases hb : (env.probeOracle st.nProbe).balance with _ | b
      · simp only []
        obtain ⟨hw1, hw2, hw3⟩ := retryWait_spec env
          { st with
            trace := st.trace ++ [{ kind := .balanceProbe kid, disc := false }]
            disc := false
            nChecks := st.nChecks + 1 + 1
            nProbe := st.nProbe + 1 } kid
        refine ⟨⟨[⟨.balanceProbe kid, false⟩], by simp [hw1], ?_⟩, ?_, ?_⟩
        · intro ev hev
          rcases List.mem_singleton.mp hev with h2
          rw [h2]
          exact ⟨rfl, rfl⟩
        · intro r st2 h l ks hr
          have hs : r = RetryExit.silent := hw3 (r, st2) h
          rw [hs] at hr
          cases hr
        · intro k hk
          rw [hw2]
      · simp only []
        cases hsucc : (env.probeOracle st.nProbe).success with
        | false =>
          simp only [Bool.false_eq_true, if_false]
          obtain ⟨hw1, hw2, hw3⟩ := retryWait_spec env
            { st with
              trace := st.trace ++ [{ kind := .balanceProbe kid, disc := false }]
              disc := false
              nChecks := st.nChecks + 1 + 1
              nProbe := st.nProbe + 1 } kid
          refine ⟨⟨[⟨.balanceProbe kid, false⟩], by simp [hw1], ?_⟩, ?_, ?_⟩
          · intro ev hev
            rcases List.mem_singleton.mp hev with h2
            rw [h2]
            exact ⟨rfl, rfl⟩
          · intro r st2 h l ks hr
            have hs : r = RetryExit.silent := hw3 (r, st2) h
            rw [hs] at hr
            cases hr
          · intro k hk
            rw [hw2]
        | true =>
          simp only [if_true, updateBalanceEng, Bool.false_or]
          cases hd3 : env.discSchedule (st.nChecks + 1 + 1) with
          | true =>
            simp only [if_true]
            refine ⟨⟨[⟨.balanceProbe kid, false⟩], by simp [sumSt], ?_⟩, ?_, ?_⟩
            · intro ev hev
              rcases List.mem_singleton.mp hev with h2
              rw [h2]
              exact ⟨rfl, rfl⟩
            · intro r st2 h l ks hr
              cases h
              cases hr
            · intro k hk
              simp only [sumSt]
              exact keyIsActive_regUpdate st.reg kid k
                (fun r => { r with balance := some b, balance_checked_at := some env.now })
                (fun r => rfl)
          | false =>
            simp only [Bool.false_eq_true, if_false]
            by_cases hblt : b < 1
            · simp only [hblt, if_true]
              refine ⟨⟨[⟨.balanceProbe kid, false⟩], ?_, ?_⟩, ?_, ?_⟩
              · simp only [sumSt]
                rw [cAU_trace, updAvail_trace, mark_trace]
              · intro ev hev
                rcases List.mem_singleton.mp hev with h2
                rw [h2]
                exact ⟨rfl, rfl⟩
              · intro r st2 h l ks hr
                cases h
                cases hr
                refine ⟨rfl, Or.inr ?_⟩
                rw [keyIsActive_cAU, keyIsActive_updAvail]
                exact keyIsActive_mark_self env _ kid .insufficient _ (by intro hh; cases hh)
              · intro k hk
                simp only [sumSt]
                rw [keyIsActive_cAU, keyIsActive_updAvail,
                  keyIsActive_mark_other env _ kid k _ _ hk]
                exact keyIsActive_regUpdate st.reg kid k
                  (fun r => { r with balance := some b, balance_checked_at := some env.now })
                  (fun r => rfl)
            · simp only [hblt, if_false]
              obtain ⟨hw1, hw2, hw3⟩ := retryWait_spec env
                { st with
                  reg := regUpdate st.reg kid
                    (fun r => { r with balance := some b, balance_checked_at := some env.now })
                  trace := st.trace ++ [{ kind := .balanceProbe kid, disc := false }]
                  disc := false
                  nChecks := st.nChecks + 1 + 1 + 1
                  nProbe := st.nProbe + 1 } kid
              refine ⟨⟨[⟨.balanceProbe kid, false⟩], by simp [hw1], ?_⟩, ?_, ?_⟩
              · intro ev hev
                rcases List.mem_singleton.mp hev with h2
                rw [h2]
                exact ⟨rfl, rfl⟩
              · intro r st2 h l ks hr
                have hs : r = RetryExit.silent := hw3 (r, st2) h
                rw [hs] at hr
                cases hr
              · intro k hk
                rw [hw2]
                exact keyIsActive_regUpdate st.reg kid k
                  (fun r => { r with balance := some b, balance_checked_at := some env.now })
                  (fun r => rfl)

theorem check_trace (env : Env) (st : EngSt) : (check env st).2.trace = st.trace := rfl

theorem check_reg (env : Env) (st : EngSt) : (check env st).2.reg = st.reg := rfl

theorem sE_keyIsActive (env : Env) (st : EngSt) (kid k : Nat) (hk : k ≠ kid) :
    keyIsActive (successEpilogue env st kid).reg k = keyIsActive st.reg k := by
  unfold successEpilogue
  rw [keyIsActive_restore]
  show keyIsActive (incrementCallCountEng env
    (markApiKeyStatusEng env st kid .active none) kid).reg k = _
  rw [keyIsActive_incr, keyIsActive_mark_other env _ kid k _ _ hk]

theorem aQ_keyIsActive (env : Env) (st : EngSt) (kid k : Nat) (hk : k ≠ kid) :
    keyIsActive (autoQueryBalanceEng env st kid).reg k = keyIsActive st.reg k := by
  unfold autoQueryBalanceEng
  rcases regLookup st.reg kid with _ | kr
  · rfl
  · simp only []
    split
    · simp only [probeBalance, emit]
      rcases (env.probeOracle st.nProbe).balance with _ | b
      · rfl
      · simp only []
        cases (env.probeOracle st.nProbe).success
        · rfl
        · simp only [if_true]
          by_cases hb1 : b < 1
          · simp only [hb1, if_true]
            show keyIsActive (updateAvailabilityEng (markApiKeyStatusEng env
              (updateBalanceEng env _ kid b) kid .insufficient (some "余额不足"))
              kid false).reg k = _
            rw [keyIsActive_updAvail, keyIsActive_mark_other env _ kid k _ _ hk,
              keyIsActive_updBal]
          · simp only [hb1, if_false]
            split
            · split
              · show keyIsActive (updateAvailabilityEng (markApiKeyStatusEng env
                  (updateBalanceEng env _ kid b) kid .active none) kid true).reg k = _
                rw [keyIsActive_updAvail, keyIsActive_mark_other env _ kid k _ _ hk,
                  keyIsActive_updBal]
              · rw [keyIsActive_mark_other env _ kid k _ _ hk, keyIsActive_updBal]
            · rw [keyIsActive_mark_other env _ kid k _ _ hk, keyIsActive_updBal]
    · rfl

/-- Behaviour of the non-proxy tail of the catch block (soft-block test,
failure bookkeeping, probe/wait or exhausted exit), for any state `stp`
reached with the client connected. -/
theorem failTail_spec (env : Env) (st stp : EngSt) (kid retryCount : Nat)
    (lastErr : Option Nat) (e : UpstreamError) (δp : List Event)
    (hT : stp.trace = st.trace ++ δp) (hD : stp.disc = false) (hR : stp.reg = st.reg)
    (hP : ∀ ev ∈ δp, ev.disc = false ∧ chatOf ev = none) :
    (∃ δ, (sumSt (if isBusyError e = true then Sum.inl (busyBranch env stp)
      else if decide (retryCount < 3) = true then
        (if (check env (errorRecord env stp kid e)).1 = true then
          Sum.inl (retryExhaust env (check env (errorRecord env stp kid e)).2 kid lastErr e)
        else preRetryProbe env (check env (errorRecord env stp kid e)).2 kid)
      else Sum.inl (retryExhaust env (errorRecord env stp kid e) kid lastErr e))).trace
        = st.trace ++ δ ∧ ∀ ev ∈ δ, ev.disc = false ∧ chatOf ev = none)
    ∧ (∀ r st2, (if isBusyError e = true then Sum.inl (busyBranch env stp)
      else if decide (retryCount < 3) = true then
        (if (check env (errorRecord env stp kid e)).1 = true then
          Sum.inl (retryExhaust env (check env (errorRecord env stp kid e)).2 kid lastErr e)
        else preRetryProbe env (check env (errorRecord env stp kid e)).2 kid)
      else Sum.inl (retryExhaust env (errorRecord env stp kid e) kid lastErr e))
        = .inl (r, st2) → ∀ l ks, r = .exited l ks →
        ks = false ∧ (st2.disc = true ∨ keyIsActive st2.reg kid = false))
    ∧ (∀ k, k ≠ kid → keyIsActive (sumSt (if isBusyError e = true then Sum.inl (busyBranch env stp)
      else if decide (retryCount < 3) = true then
        (if (check env (errorRecord env stp kid e)).1 = true then
          Sum.inl (retryExhaust env (check env (errorRecord env stp kid e)).2 kid lastErr e)
        else preRetryProbe env (check env (errorRecord env stp kid e)).2 kid)
      else Sum.inl (retryExhaust env (errorRecord env stp kid e) kid lastErr e))).reg k
        = keyIsActive st.reg k)
    ∧ (∀ st2, (if isBusyError e = true then Sum.inl (busyBranch env stp)
      else if decide (retryCount < 3) = true then
        (if (check env (errorRecord env stp kid e)).1 = true then
          Sum.inl (retryExhaust env (check env (errorRecord env stp kid e)).2 kid lastErr e)
        else preRetryProbe env (check env (errorRecord env stp kid e)).2 kid)
      else Sum.inl (retryExhaust env (errorRecord env stp kid e) kid lastErr e))
        = .inr st2 → retryCount < 3) := by
  by_cases hbz : isBusyError e = true
  · simp only [hbz, if_true]
    obtain ⟨⟨δb, hδb, hPb⟩, hregb, hnex⟩ := busyBranch_spec env stp
    refine ⟨⟨δp ++ δb, ?_, ?_⟩, ?_, ?_, ?_⟩
    · show (busyBranch env stp).2.trace = _
      rw [hδb, hT, List.append_assoc]
    · intro ev hev
      rcases List.mem_append.mp hev with h | h
      · exact hP ev h
      · exact hPb ev h
    · intro r st2 h l ks hr
      injection h with h2
      exact absurd (by rw [h2, hr]) (hnex l ks)
    · intro k hk
      show keyIsActive (busyBranch env stp).2.reg k = _
      rw [hregb, hR]
    · intro st2 h
      exact Sum.noConfusion h
  · simp only [hbz, Bool.false_eq_true, if_false]
    obtain ⟨⟨δe, hδe, hPe⟩, hke⟩ := errorRecord_spec env stp kid e
    by_cases hrc : retryCount < 3
    · rw [if_pos (decide_eq_true hrc)]
      cases hcd : (check env (errorRecord env stp kid e)).1 with
      | true =>
        simp only [if_true]
        obtain ⟨hrt, ⟨l0, hl0⟩, hdisj, hko⟩ := retryExhaust_spec env
          (check env (errorRecord env stp kid e)).2 kid lastErr e
        refine ⟨⟨δp ++ δe, ?_, ?_⟩, ?_, ?_, ?_⟩
        · show (retryExhaust env _ kid lastErr e).2.trace = _
          rw [hrt, check_trace, hδe, hT, List.append_assoc]
        · intro ev hev
          rcases List.mem_append.mp hev with h | h
          · exact hP ev h
          · exact hPe ev h
        · intro r st2 h l ks hr
          injection h with h2
          have hr1 : (retryExhaust env (check env (errorRecord env stp kid e)).2 kid lastErr e).1 = r :=
            congrArg Prod.fst h2
          have hst2 : (retryExhaust env (check env (errorRecord env stp kid e)).2 kid lastErr e).2 = st2 :=
            congrArg Prod.snd h2
          rw [hr1, hr] at hl0
          injection hl0 with hl1 hl2
          rw [hst2] at hdisj
          exact ⟨hl2, hdisj⟩
        · intro k hk
          show keyIsActive (retryExhaust env _ kid lastErr e).2.reg k = _
          rw [hko k hk, check_reg, hke k hk, hR]
        · intro st2 h
          exact Sum.noConfusion h
      | false =>
        simp only [Bool.false_eq_true, if_false]
        obtain ⟨⟨δq, hδq, hPq⟩, hex, hkq⟩ := preRetryProbe_spec env
          (check env (errorRecord env stp kid e)).2 kid
        refine ⟨⟨δp ++ δe ++ δq, ?_, ?_⟩, ?_, ?_, fun st2 h => hrc⟩
        · rw [hδq, check_trace, hδe, hT]
          rw [List.append_assoc, List.append_assoc, List.append_assoc]
        · intro ev hev
          rcases List.mem_append.mp hev with h | h
          · rcases List.mem_append.mp h with h2 | h2
            · exact hP ev h2
            · exact hPe ev h2
          · exact hPq ev h
        · intro r st2 h l ks hr
          exact hex r st2 h l ks hr
        · intro k hk
          rw [hkq k hk, check_reg, hke k hk, hR]
    · rw [if_neg (by simp [hrc])]
      obtain ⟨hrt, ⟨l0, hl0⟩, hdisj, hko⟩ := retryExhaust_spec env
        (errorRecord env stp kid e) kid lastErr e
      refine ⟨⟨δp ++ δe, ?_, ?_⟩, ?_, ?_, ?_⟩
      · show (retryExhaust env _ kid lastErr e).2.trace = _
        rw [hrt, hδe, hT, List.append_assoc]
      · intro ev hev
        rcases List.mem_append.mp hev with h | h
        · exact hP ev h
        · exact hPe ev h
      · intro r st2 h l ks hr
        injection h with h2
        have hr1 : (retryExhaust env (errorRecord env stp kid e) kid lastErr e).1 = r :=
          congrArg Prod.fst h2
        have hst2 : (retryExhaust env (errorRecord env stp kid e) kid lastErr e).2 = st2 :=
          congrArg Prod.snd h2
        rw [hr1, hr] at hl0
        injection hl0 with hl1 hl2
        rw [hst2] at hdisj
        exact ⟨hl2, hdisj⟩
      · intro k hk
        show keyIsActive (retryExhaust env _ kid lastErr e).2.reg k = _
        rw [hko k hk, hke k hk, hR]
      · intro st2 h
        exact Sum.noConfusion h

/-- The catch block of one attempt: appends only connected-tagged non-chat
events; an `exited` exit means disconnect or demotion of the credential;
other credentials' statuses are untouched; a continue (`.inr`) can only
happen with retries left. -/
theorem failBranch_spec (env : Env) (st : EngSt) (kid retryCount : Nat)
    (lastErr : Option Nat) (e : UpstreamError) :
    (∃ δ, (sumSt (failBranch env st kid retryCount lastErr e)).trace = st.trace ++ δ ∧
      ∀ ev ∈ δ, ev.disc = false ∧ chatOf ev = none)
    ∧ (∀ r st2, failBranch env st kid retryCount lastErr e = .inl (r, st2) →
        ∀ l ks, r = .exited l ks →
        ks = false ∧ (st2.disc = true ∨ keyIsActive st2.reg kid = false))
    ∧ (∀ k, k ≠ kid → keyIsActive (sumSt (failBranch env st kid retryCount lastErr e)).reg k
        = keyIsActive st.reg k)
    ∧ (∀ st2, failBranch env st kid retryCount lastErr e = .inr st2 → retryCount < 3) := by
  unfold failBranch
  simp only [check]
  cases hd : st.disc || env.discSchedule st.nChecks with
  | true =>
    simp only [if_true]
    refine ⟨⟨[], by simp [sumSt], by simp⟩, ?_, fun k hk => rfl, ?_⟩
    · intro r st2 h l ks hr
      cases h
      cases hr
    · intro st2 h
      exact Sum.noConfusion h
  | false =>
    simp only [Bool.false_eq_true, if_false]
    by_cases hft : (env.proxyEnabled && shouldUseProxy e && decide (retryCount = 0)) = true
    · simp only [hft, if_true]
      obtain ⟨δp, hδp, hPp⟩ := tP_ext env
        { st with disc := false, nChecks := st.nChecks + 1 }
      rcases htp : tryProxyRequestEng env
        { st with disc := false, nChecks := st.nChecks + 1 } with ⟨pres, stp⟩
      have hstp : (tryProxyRequestEng env
          { st with disc := false, nChecks := st.nChecks + 1 }).2 = stp := by rw [htp]
      have hT2 : stp.trace = st.trace ++ δp := by
        rw [← hstp, hδp]
      have hD2 : stp.disc = false := by
        rw [← hstp, tP_disc]
      have hR2 : stp.reg = st.reg := by
        rw [← hstp, tP_reg]
      have hP2 : ∀ ev ∈ δp, ev.disc = false ∧ chatOf ev = none := by
        intro ev hev
        exact ⟨((hPp ev hev).1).trans rfl, (hPp ev hev).2⟩
      rcases pres with _ | pid | _
      · exact failTail_spec env st stp kid retryCount lastErr e δp hT2 hD2 hR2 hP2
      · simp only []
        refine ⟨⟨δp ++ [⟨.usageWrite kid true, false⟩], ?_, ?_⟩, ?_, ?_, ?_⟩
        · show (successEpilogue env stp kid).trace = _
          rw [sE_trace, hD2, hT2, List.append_assoc]
        · intro ev hev
          rcases List.mem_append.mp hev with h | h
          · exact hP2 ev h
          · rcases List.mem_singleton.mp h with h2
            rw [h2]
            exact ⟨rfl, rfl⟩
        · intro r st2 h l ks hr
          injection h with h2
          have hr1 : RetryExit.respond Resp.okJson = r := congrArg Prod.fst h2
          rw [← hr1] at hr
          cases hr
        · intro k hk
          show keyIsActive (successEpilogue env stp kid).reg k = _
          rw [sE_keyIsActive env stp kid k hk, hR2]
        · intro st2 h
          exact Sum.noConfusion h
      · exact failTail_spec env st stp kid retryCount lastErr e δp hT2 hD2 hR2 hP2
    · simp only [hft, Bool.false_eq_true, if_false]
      exact failTail_spec env st { st with disc := false, nChecks := st.nChecks + 1 }
        kid retryCount lastErr e [] (by simp) rfl rfl (by simp)

/-- The chat-dispatch event recorded by `attemptChat` from a connected
state. -/
def chatEv (env : Env) (st : EngSt) (kid : Nat) : Event :=
  { kind := .chatDispatch kid ((getActiveProxyEng env st).1.map (fun p => p.id))
    disc := false }

theorem chatEv_disc (env : Env) (st : EngSt) (kid : Nat) :
    (chatEv env st kid).disc = false := rfl

theorem dispatches_chatEv (env : Env) (st : EngSt) (kid : Nat) :
    dispatches [chatEv env st kid] = [kid] := rfl

/-- One retry-loop body iteration: appends connected-tagged events with at
most one chat dispatch (to the given credential); an `exited` exit means
disconnect or demotion; other credentials' statuses are untouched; a
continue can only happen with retries left. -/
theorem retryBody_spec (env : Env) (st : EngSt) (kid retryCount : Nat)
    (lastErr : Option Nat) :
    (∃ δ, (sumSt (retryBody env st kid retryCount lastErr)).trace = st.trace ++ δ ∧
      (∀ ev ∈ δ, ev.disc = false) ∧ (dispatches δ = [] ∨ dispatches δ = [kid]))
    ∧ (∀ r st2, retryBody env st kid retryCount lastErr = .inl (r, st2) →
        ∀ l ks, r = .exited l ks →
        ks = false ∧ (st2.disc = true ∨ keyIsActive st2.reg kid = false))
    ∧ (∀ k, k ≠ kid → keyIsActive (sumSt (retryBody env st kid retryCount lastErr)).reg k
        = keyIsActive st.reg k)
    ∧ (∀ st2, retryBody env st kid retryCount lastErr = .inr st2 → retryCount < 3) := by
  unfold retryBody
  simp only [check]
  cases hd : st.disc || env.discSchedule st.nChecks with
  | true =>
    simp only [if_true]
    refine ⟨⟨[], by simp [sumSt], by simp, Or.inl rfl⟩, ?_, fun k hk => rfl, ?_⟩
    · intro r st2 h l ks hr
      cases h
      cases hr
    · intro st2 h
      exact Sum.noConfusion h
  | false =>
    simp only [Bool.false_eq_true, if_false]
    rcases hac : attemptChat env { st with disc := false, nChecks := st.nChecks + 1 } kid
      with ⟨out, sta⟩
    have hsta : (attemptChat env { st with disc := false, nChecks := st.nChecks + 1 } kid).2
        = sta := congrArg Prod.snd hac
    have hTa : sta.trace = st.trace ++
        [chatEv env { st with disc := false, nChecks := st.nChecks + 1 } kid] := by
      rw [← hsta]
      exact attemptChat_trace env _ kid
    have hDa : sta.disc = false := by
      rw [← hsta]
      exact aC_disc env _ kid
    have hRa : sta.reg = st.reg := by
      rw [← hsta]
      exact aC_reg env _ kid
    rcases out with _ | e
    · simp only []
      rw [hDa]
      simp only [Bool.false_or]
      cases hd2 : env.discSchedule sta.nChecks with
      | true =>
        simp only [if_true]
        refine ⟨⟨[chatEv env { st with disc := false, nChecks := st.nChecks + 1 } kid],
          by simp [sumSt, hTa], ?_, Or.inr (dispatches_chatEv env _ kid)⟩, ?_, ?_, ?_⟩
        · intro ev hev
          rcases List.mem_singleton.mp hev with h2
          rw [h2]
          exact chatEv_disc env _ kid
        · intro r st2 h l ks hr
          cases h
          cases hr
        · intro k hk
          simp only [sumSt]
          exact hRa ▸ rfl
        · intro st2 h
          exact Sum.noConfusion h
      | false =>
        simp only [Bool.false_eq_true, if_false]
        by_cases hth : 0 < env.autoQueryThreshold
        · simp only [hth, if_true]
          obtain ⟨δq, hδq, hPq⟩ := aQ_ext env
            (successEpilogue env { sta with disc := false, nChecks := sta.nChecks + 1 } kid) kid
          refine ⟨⟨[chatEv env { st with disc := false, nChecks := st.nChecks + 1 } kid]
            ++ ([⟨.usageWrite kid true, false⟩] ++ δq), ?_, ?_, ?_⟩, ?_, ?_, ?_⟩
          · show (autoQueryBalanceEng env _ kid).trace = _
            rw [hδq, sE_trace]
            show ({ sta with disc := false, nChecks := sta.nChecks + 1 }).trace
              ++ [{ kind := .usageWrite kid true
                    disc := ({ sta with disc := false, nChecks := sta.nChecks + 1 }).disc }] ++ δq = _
            simp only []
            rw [hTa]
            simp [List.append_assoc]
          · intro ev hev
            rcases List.mem_append.mp hev with h | h
            · rcases List.mem_singleton.mp h with h2
              rw [h2]
              exact chatEv_disc env _ kid
            · rcases List.mem_append.mp h with h2 | h2
              · rcases List.mem_singleton.mp h2 with h3
                rw [h3]
              · have := (hPq ev h2).1
                rw [this, sE_disc]
          · refine Or.inr ?_
            rw [dispatches_append, dispatches_append,
              dispatches_nil_of (fun e2 he2 => (hPq e2 he2).2), dispatches_chatEv]
            rfl
          · intro r st2 h l ks hr
            injection h with h2
            have hr1 : RetryExit.respond Resp.okJson = r := congrArg Prod.fst h2
            rw [← hr1] at hr
            cases hr
          · intro k hk
            show keyIsActive (autoQueryBalanceEng env _ kid).reg k = _
            rw [aQ_keyIsActive env _ kid k hk, sE_keyIsActive env _ kid k hk]
            show keyIsActive sta.reg k = _
            rw [hRa]
          · intro st2 h
            exact Sum.noConfusion h
        · simp only [hth, if_false]
          refine ⟨⟨[chatEv env { st with disc := false, nChecks := st.nChecks + 1 } kid]
            ++ [⟨.usageWrite kid true, false⟩], ?_, ?_, ?_⟩, ?_, ?_, ?_⟩
          · show (successEpilogue env _ kid).trace = _
            rw [sE_trace]
            show ({ sta with disc := false, nChecks := sta.nChecks + 1 }).trace
              ++ [{ kind := .usageWrite kid true
                    disc := ({ sta with disc := false, nChecks := sta.nChecks + 1 }).disc }] = _
            simp only []
            rw [hTa]
            simp [List.append_assoc]
          · intro ev hev
            rcases List.mem_append.mp hev with h | h
            · rcases List.mem_singleton.mp h with h2
              rw [h2]
              exact chatEv_disc env _ kid
            · rcases List.mem_singleton.mp h with h2
              rw [h2]
          · refine Or.inr ?_
            rw [dispatches_append, dispatches_chatEv]
            rfl
          · intro r st2 h l ks hr
            injection h with h2
            have hr1 : RetryExit.respond Resp.okJson = r := congrArg Prod.fst h2
            rw [← hr1] at hr
            cases hr
          · intro k hk
            show keyIsActive (successEpilogue env _ kid).reg k = _
            rw [sE_keyIsActive env _ kid k hk]
            show keyIsActive sta.reg k = _
            rw [hRa]
          · intro st2 h
            exact Sum.noConfusion h
    · simp only []
      obtain ⟨⟨δf, hδf, hPf⟩, hex, hkf, hinr⟩ := failBranch_spec env sta kid retryCount lastErr e
      refine ⟨⟨chatEv env { st with disc := false, nChecks := st.nChecks + 1 } kid :: δf,
        ?_, ?_, ?_⟩, hex, ?_, hinr⟩
      · rw [hδf, hTa]
        simp
      · intro ev hev
        rcases List.mem_cons.mp hev with h | h
        · rw [h]
          exact chatEv_disc env _ kid
        · exact (hPf ev h).1
      · refine Or.inr ?_
        show dispatches ([chatEv env { st with disc := false, nChecks := st.nChecks + 1 } kid] ++ δf) = [kid]
        rw [dispatches_append, dispatches_nil_of (fun e2 he2 => (hPf e2 he2).2), dispatches_chatEv]
        rfl
      · intro k hk
        rw [hkf k hk, hRa]

/-- The inner retry loop with the source's budget (`retryCount + fuel = 4`):
appends connected-tagged events whose chat dispatches all address the
given credential, at most one per remaining attempt; on a fall-out
(`exited`), `keySuccess` is false and either the disconnect flag is up or
the credential has been demoted, and other credentials' statuses are
untouched. -/
theorem retryLoop_spec (env : Env) (kid : Nat) :
    ∀ (fuel : Nat) (st : EngSt) (rc : Nat) (lastErr : Option Nat),
    rc + fuel = 4 → rc ≤ 3 →
    (∃ δ, (retryLoop env kid st rc lastErr fuel).2.trace = st.trace ++ δ ∧
      (∀ ev ∈ δ, ev.disc = false)
      ∧ ∃ n, n ≤ fuel ∧ dispatches δ = List.replicate n kid)
    ∧ (∀ l ks, (retryLoop env kid st rc lastErr fuel).1 = .exited l ks →
        ks = false
        ∧ ((retryLoop env kid st rc lastErr fuel).2.disc = true
            ∨ keyIsActive (retryLoop env kid st rc lastErr fuel).2.reg kid = false)
        ∧ ∀ k, k ≠ kid → keyIsActive (retryLoop env kid st rc lastErr fuel).2.reg k
            = keyIsActive st.reg k) := by
  intro fuel
  induction fuel with
  | zero =>
    intro st rc lastErr hsum hrc
    omega
  | succ m ih =>
    intro st rc lastErr hsum hrc
    rw [retryLoop, if_pos (decide_eq_true hrc)]
    simp only [check]
    cases hd : st.disc || env.discSchedule st.nChecks with
    | true =>
      simp only [if_true]
      refine ⟨⟨[], by simp, by simp, 0, by omega, rfl⟩, ?_⟩
      intro l ks h
      have h2 : RetryExit.exited lastErr false = .exited l ks := h
      injection h2 with h3 h4
      refine ⟨h4.symm, Or.inl ?_, fun k hk => ?_⟩ <;> trivial
    | false =>
      simp only [Bool.false_eq_true, if_false]
      obtain ⟨⟨δ1, hδ1, hP1, hdisp⟩, hex, hkr, hinr⟩ :=
        retryBody_spec env { st with disc := false, nChecks := st.nChecks + 1 } kid rc lastErr
      rcases hb : retryBody env { st with disc := false, nChecks := st.nChecks + 1 } kid rc lastErr
        with ⟨r, st2⟩ | st3
      · rw [hb] at hδ1 hkr
        simp only [sumSt] at hδ1 hkr
        refine ⟨⟨δ1, ?_, hP1, ?_⟩, ?_⟩
        · exact hδ1
        · rcases hdisp with h0 | h1
          · exact ⟨0, by omega, h0⟩
          · exact ⟨1, by omega, h1⟩
        · intro l ks h
          have h2 : r = .exited l ks := h
          obtain ⟨hks, hdj⟩ := hex r st2 hb l ks h2
          exact ⟨hks, hdj, fun k hk => hkr k hk⟩
      · rw [hb] at hδ1 hkr
        simp only [sumSt] at hδ1 hkr
        have hrc3 : rc < 3 := hinr st3 hb
        obtain ⟨⟨δ2, hδ2, hP2, n2, hn2, hd2⟩, hex2⟩ :=
          ih st3 (rc + 1) lastErr (by omega) (by omega)
        refine ⟨⟨δ1 ++ δ2, ?_, ?_, ?_⟩, ?_⟩
        · rw [hδ2, hδ1]
          simp [List.append_assoc]
        · intro ev hev
          rcases List.mem_append.mp hev with h | h
          · exact hP1 ev h
          · exact hP2 ev h
        · rcases hdisp with h0 | h1
          · refine ⟨n2, by omega, ?_⟩
            rw [dispatches_append, h0, hd2]
            rfl
          · refine ⟨n2 + 1, by omega, ?_⟩
            rw [dispatches_append, h1, hd2]
            rfl
        · intro l ks h
          obtain ⟨hks, hdj, hko⟩ := hex2 l ks h
          refine ⟨hks, hdj, fun k hk => ?_⟩
          rw [hko k hk, hkr k hk]

/-- A successful rotation returns a credential that is `active` in the
registry it scanned. -/
theorem switch_active (reg : Registry) (s : SelState) (kid2 : Nat) (s2 : SelState)
    (h : switchToNextApiKey reg s = (some kid2, s2)) :
    keyIsActive reg kid2 = true := by
  unfold switchToNextApiKey at h
  by_cases he : (if s.activeApiKeys.isEmpty then loadActiveApiKeys reg s else s).activeApiKeys.isEmpty
  · rw [if_pos he] at h
    injection h with h1 h2
    cases h1
  · rw [if_neg he] at h
    rcases hscan : scanLoop reg
      (if s.activeApiKeys.isEmpty then loadActiveApiKeys reg s else s).activeApiKeys
      (nextStart (if s.activeApiKeys.isEmpty then loadActiveApiKeys reg s else s)) with _ | found
    · rw [hscan] at h
      injection h with h1 h2
      cases h1
    · rw [hscan] at h
      injection h with h1 h2
      injection h1 with h1b
      unfold scanLoop at hscan
      obtain ⟨i, hi, hf⟩ := List.exists_of_findSome?_eq_some hscan
      rcases hg : (if s.activeApiKeys.isEmpty then loadActiveApiKeys reg s
          else s).activeApiKeys.get?
          ((nextStart (if s.activeApiKeys.isEmpty then loadActiveApiKeys reg s else s) + i) %
          (if s.activeApiKeys.isEmpty then loadActiveApiKeys reg s
            else s).activeApiKeys.length) with _ | id
    -- hmm indentation
      · rw [hg] at hf
        cases hf
      · rw [hg] at hf
        simp only [] at hf
        by_cases hka : keyIsActive reg id = true
        · rw [if_pos hka] at hf
          injection hf with hf2
          rw [← h1b, ← hf2]
          exact hka
        · rw [if_neg hka] at hf
          cases hf

/-- One outer-loop iteration: appends connected-tagged events with at most
4 chat dispatches, all to the current credential; when it hands over to the
next iteration, the current credential has been demoted, the next one is
active, and all other statuses are untouched. -/
theorem keyStep_spec (env : Env) (st : EngSt) (kid : Nat) (lastErr : Option Nat) :
    (∃ δ, (ksSt (keyStep env st kid lastErr)).trace = st.trace ++ δ ∧
      (∀ ev ∈ δ, ev.disc = false)
      ∧ ∃ n, n ≤ 4 ∧ dispatches δ = List.replicate n kid)
    ∧ (∀ st2 kid2 le2, keyStep env st kid lastErr = .inr (st2, kid2, le2) →
        keyIsActive st2.reg kid = false ∧ keyIsActive st2.reg kid2 = true
        ∧ ∀ k, k ≠ kid → keyIsActive st2.reg k = keyIsActive st.reg k) := by
  unfold keyStep
  obtain ⟨⟨δ1, hδ1, hP1, n1, hn1, hd1⟩, hex⟩ :=
    retryLoop_spec env kid 4 st 0 lastErr rfl (by omega)
  rcases hrl : retryLoop env kid st 0 lastErr 4 with ⟨rr, st1⟩
  have h1 : (retryLoop env kid st 0 lastErr 4).2 = st1 := congrArg Prod.snd hrl
  rw [h1] at hδ1
  rcases rr with r0 | _ | ⟨le2, ks⟩
  · refine ⟨⟨δ1, ?_, hP1, n1, hn1, hd1⟩, ?_⟩
    · show st1.trace = st.trace ++ δ1
      exact hδ1
    · intro st2 kid2 le3 h
      exact Sum.noConfusion h
  · refine ⟨⟨δ1, ?_, hP1, n1, hn1, hd1⟩, ?_⟩
    · show st1.trace = st.trace ++ δ1
      exact hδ1
    · intro st2 kid2 le3 h
      exact Sum.noConfusion h
  · obtain ⟨hks, hdj, hko⟩ := hex le2 ks (by rw [hrl])
    rw [h1] at hdj hko
    subst hks
    simp only [Bool.false_eq_true, if_false, check]
    cases hdc : st1.disc || env.discSchedule st1.nChecks with
    | true =>
      simp only [if_true]
      refine ⟨⟨δ1, ?_, hP1, n1, hn1, hd1⟩, fun st2 kid2 le3 h => Sum.noConfusion h⟩
      show (afterKeyLoop env _).2.trace = _
      rw [afterKeyLoop_trace]
      simpa using hδ1
    | false =>
      simp only [Bool.false_eq_true, if_false]
      have hdd : st1.disc = false := by
        rcases Bool.or_eq_false_iff.mp hdc with ⟨hx, _⟩
        exact hx
      have hinact : keyIsActive st1.reg kid = false := by
        rcases hdj with hT | hF
        · rw [hdd] at hT
          cases hT
        · exact hF
      rcases hsw : switchToNextApiKey st1.reg st1.sel with ⟨newKey, sel2⟩
      cases hdc2 : env.discSchedule (st1.nChecks + 1) with
      | true =>
        simp only [if_true]
        exact ⟨⟨δ1, by simpa using hδ1, hP1, n1, hn1, hd1⟩,
          fun st2 kid2 le3 h => Sum.noConfusion h⟩
      | false =>
        simp only [Bool.false_eq_true, if_false]
        rcases newKey with _ | kid2
        · simp only []
          cases hdc3 : env.discSchedule (st1.nChecks + 1 + 1) with
          | true =>
            refine ⟨⟨δ1, ?_, hP1, n1, hn1, hd1⟩, ?_⟩
            · simp [ksSt, hδ1]
            · intro st2 kid2 le3 h
              simp at h
          | false =>
            refine ⟨⟨δ1, ?_, hP1, n1, hn1, hd1⟩, ?_⟩
            · simp [ksSt, hδ1]
            · intro st2 kid2 le3 h
              simp at h
        · simp only []
          refine ⟨⟨δ1, by simpa using hδ1, hP1, n1, hn1, hd1⟩, ?_⟩
          intro st2 kid3 le3 h
          injection h with h2
          have hst2 : setCursorEng { st1 with sel := sel2, disc := false, nChecks := st1.nChecks + 1 + 1 } kid2 = st2 := congrArg (fun t => t.1) h2
          have hk23 : kid2 = kid3 := congrArg (fun t => t.2.1) h2
          have hreg2 : st2.reg = st1.reg := by
            rw [← hst2]
            rfl
          refine ⟨?_, ?_, ?_⟩
          · rw [hreg2]
            exact hinact
          · rw [hreg2, ← hk23]
            exact switch_active st1.reg st1.sel kid2 sel2 hsw
          · intro k hk
            rw [hreg2]
            exact hko k hk

theorem count_replicate_le (n b k : Nat) : (List.replicate n b).count k ≤ n :=
  le_trans (List.count_le_length k (List.replicate n b)) (by simp)

theorem toFinset_replicate_card_le (n b : Nat) :
    (List.replicate n b).toFinset.card ≤ 1 := by
  have h : (List.replicate n b).toFinset ⊆ {b} := by
    intro x hx
    rw [List.mem_toFinset] at hx
    rw [Finset.mem_singleton]
    exact List.eq_of_mem_replicate hx
  calc (List.replicate n b).toFinset.card ≤ ({b} : Finset Nat).card := Finset.card_le_card h
    _ = 1 := Finset.card_singleton b

/-- The outer credential loop with fuel: appends connected-tagged events
with at most 4 chat dispatches per credential, touching at most `fuel`
distinct credentials, each of them active (in the registry as of its own
iteration, in particular the first as of entry). -/
theorem keyLoop_spec (env : Env) :
    ∀ (fuel : Nat) (st : EngSt) (kid : Nat) (lastErr : Option Nat),
    keyIsActive st.reg kid = true →
    ∃ δ, (keyLoop env st kid lastErr fuel).2.trace = st.trace ++ δ
      ∧ (∀ ev ∈ δ, ev.disc = false)
      ∧ (∀ k, (dispatches δ).count k ≤ 4)
      ∧ (dispatches δ).toFinset.card ≤ fuel
      ∧ (∀ k ∈ dispatches δ, keyIsActive st.reg k = true) := by
  intro fuel
  induction fuel with
  | zero =>
    intro st kid lastErr hk
    refine ⟨[], ?_, ?_, ?_, ?_, ?_⟩
    · rw [keyLoop, afterKeyLoop_trace]
      simp
    · intro ev hev
      cases hev
    · intro k
      show ([] : List Nat).count k ≤ 4
      simp
    · show ([] : List Nat).toFinset.card ≤ 0
      simp
    · intro k hkm
      cases hkm
  | succ m ih =>
    intro st kid lastErr hk
    rw [keyLoop]
    simp only [check]
    cases hd : st.disc || env.discSchedule st.nChecks with
    | true =>
      simp only [if_true]
      refine ⟨[], ?_, ?_, ?_, ?_, ?_⟩
      · rw [afterKeyLoop_trace]
        simp
      · intro ev hev
        cases hev
      · intro k
        show ([] : List Nat).count k ≤ 4
        simp
      · show ([] : List Nat).toFinset.card ≤ m + 1
        simp
      · intro k hkm
        cases hkm
    | false =>
      simp only [Bool.false_eq_true, if_false]
      obtain ⟨⟨δ1, hδ1, hP1, n1, hn1, hd1⟩, hinr⟩ :=
        keyStep_spec env { st with disc := false, nChecks := st.nChecks + 1 } kid lastErr
      rcases hks : keyStep env { st with disc := false, nChecks := st.nChecks + 1 } kid lastErr
        with r1 | ⟨st2, kid2, le2⟩
      · rw [hks] at hδ1
        simp only [ksSt] at hδ1
        refine ⟨δ1, ?_, hP1, ?_, ?_, ?_⟩
        · exact hδ1
        · intro k
          rw [hd1]
          exact le_trans (count_replicate_le n1 kid k) hn1
        · rw [hd1]
          exact le_trans (toFinset_replicate_card_le n1 kid) (by omega)
        · intro k hkm
          rw [hd1] at hkm
          rw [List.eq_of_mem_replicate hkm]
          exact hk
      · rw [hks] at hδ1
        simp only [ksSt] at hδ1
        obtain ⟨hki, hka2, hko⟩ := hinr st2 kid2 le2 hks
        obtain ⟨δ2, hδ2, hP2, hc2, hcard2, hmem2⟩ := ih st2 kid2 le2 hka2
        have hkid_notin : kid ∉ dispatches δ2 := by
          intro hmm
          have := hmem2 kid hmm
          rw [hki] at this
          cases this
        refine ⟨δ1 ++ δ2, ?_, ?_, ?_, ?_, ?_⟩
        · rw [hδ2, hδ1]
          simp [List.append_assoc]
        · intro ev hev
          rcases List.mem_append.mp hev with h | h
          · exact hP1 ev h
          · exact hP2 ev h
        · intro k
          rw [dispatches_append, List.count_append, hd1]
          by_cases hkk : k = kid
          · subst hkk
            rw [List.count_eq_zero_of_not_mem hkid_notin]
            calc (List.replicate n1 k).count k + 0 ≤ n1 + 0 := by
                  exact Nat.add_le_add_right (count_replicate_le n1 k k) 0
              _ ≤ 4 := by omega
          · have h0 : (List.replicate n1 kid).count k = 0 := by
              apply List.count_eq_zero_of_not_mem
              intro hmm
              exact hkk (List.eq_of_mem_replicate hmm)
            rw [h0]
            calc 0 + (dispatches δ2).count k = (dispatches δ2).count k := by omega
              _ ≤ 4 := hc2 k
        · rw [dispatches_append, List.toFinset_append]
          calc ((dispatches δ1).toFinset ∪ (dispatches δ2).toFinset).card
              ≤ (dispatches δ1).toFinset.card + (dispatches δ2).toFinset.card :=
                Finset.card_union_le _ _
            _ ≤ 1 + m := by
                have := hcard2
                rw [hd1]
                have h1 := toFinset_replicate_card_le n1 kid
                omega
            _ ≤ m + 1 := by omega
        · intro k hkm
          rw [dispatches_append] at hkm
          rcases List.mem_append.mp hkm with h | h
          · rw [hd1] at h
            rw [List.eq_of_mem_replicate h]
            exact hk
          · have hact2 : keyIsActive st2.reg k = true := hmem2 k h
            have hne : k ≠ kid := by
              intro hkk
              rw [hkk, hki] at hact2
              cases hact2
            rw [← hko k hne]
            exact hact2

theorem scanHead_spec (st : EngSt) :
    (scanHead st).2.trace = st.trace ∧ (scanHead st).2.reg = st.reg
    ∧ ∀ kid, (scanHead st).1 = some kid → keyIsActive st.reg kid = true := by
  unfold scanHead
  rcases hf : st.sel.activeApiKeys.find? (fun i => keyIsActive st.reg i) with _ | i
  · exact ⟨rfl, rfl, fun kid h => by cases h⟩
  · refine ⟨rfl, rfl, ?_⟩
    intro kid h
    have h2 : some i = some kid := h
    injection h2 with h3
    rw [← h3]
    exact List.find?_some hf

/-- The body of `getCurrentApiKey` after the initial conditional reload. -/
theorem gck_core (st0 st1 : EngSt) (hT : st1.trace = st0.trace) (hR : st1.reg = st0.reg) :
    ((if st1.sel.activeApiKeys.isEmpty = true then ((none : Option Nat), st1)
      else match st1.sel.currentApiKeyId with
        | some cid =>
          if cid = 0 then scanHead st1
          else if keyIsActive st1.reg cid then (some cid, st1)
          else scanHead { st1 with sel := { st1.sel with currentApiKeyId := none } }
        | none => scanHead st1).2.trace = st0.trace)
    ∧ ((if st1.sel.activeApiKeys.isEmpty = true then ((none : Option Nat), st1)
      else match st1.sel.currentApiKeyId with
        | some cid =>
          if cid = 0 then scanHead st1
          else if keyIsActive st1.reg cid then (some cid, st1)
          else scanHead { st1 with sel := { st1.sel with currentApiKeyId := none } }
        | none => scanHead st1).2.reg = st0.reg)
    ∧ ∀ kid, (if st1.sel.activeApiKeys.isEmpty = true then ((none : Option Nat), st1)
      else match st1.sel.currentApiKeyId with
        | some cid =>
          if cid = 0 then scanHead st1
          else if keyIsActive st1.reg cid then (some cid, st1)
          else scanHead { st1 with sel := { st1.sel with currentApiKeyId := none } }
        | none => scanHead st1).1 = some kid → keyIsActive st0.reg kid = true := by
  by_cases he : st1.sel.activeApiKeys.isEmpty = true
  · simp only [he, if_true]
    exact ⟨hT, hR, fun kid h => by cases h⟩
  · simp only [he, Bool.false_eq_true, if_false]
    rcases hc : st1.sel.currentApiKeyId with _ | cid
    · obtain ⟨h1, h2, h3⟩ := scanHead_spec st1
      refine ⟨h1.trans hT, h2.trans hR, ?_⟩
      intro kid h
      have := h3 kid h
      rwa [hR] at this
    · by_cases hz : cid = 0
      · simp only [hz, if_true]
        obtain ⟨h1, h2, h3⟩ := scanHead_spec st1
        refine ⟨h1.trans hT, h2.trans hR, ?_⟩
        intro kid h
        have := h3 kid h
        rwa [hR] at this
      · simp only [hz, if_false]
        by_cases hact : keyIsActive st1.reg cid = true
        · simp only [hact, if_true]
          refine ⟨hT, hR, ?_⟩
          intro kid h
          have h2 : some cid = some kid := h
          injection h2 with h3
          rw [← h3, ← hR]
          exact hact
        · simp only [hact, Bool.false_eq_true, if_false]
          obtain ⟨h1, h2, h3⟩ :=
            scanHead_spec { st1 with sel := { st1.sel with currentApiKeyId := none } }
          refine ⟨h1.trans hT, h2.trans hR, ?_⟩
          intro kid h
          have := h3 kid h
          rwa [hR] at this

theorem gck_spec (st : EngSt) :
    (getCurrentApiKeyEng st).2.trace = st.trace
    ∧ (getCurrentApiKeyEng st).2.reg = st.reg
    ∧ ∀ kid, (getCurrentApiKeyEng st).1 = some kid → keyIsActive st.reg kid = true := by
  unfold getCurrentApiKeyEng
  split
  · exact gck_core st (refreshEng st) rfl rfl
  · exact gck_core st st rfl rfl

/-- C8: every action the handler performs on behalf of one request — chat
dispatches, proxy attempts, balance probes, usage writes and block
writes — carries the disconnect flag observed at the moment it was
performed, and in every run all of them carry `false`: once a
`checkClientDisconnected()` poll has observed the disconnect signal, the
engine performs no further upstream work and writes no usage row (in
particular none for an attempt that had not completed before the
disconnect was observed). -/
theorem forward_no_work_after_disconnect (env : Env) (st0 : EngSt)
    (h : st0.trace = []) :
    ∀ ev ∈ (forward env st0).2.trace, ev.disc = false := by
  unfold forward
  rcases isIpBlocked st0.blacklist env.now with _ | b
  · simp only []
    rcases hg : getCurrentApiKeyEng st0 with ⟨k0, st⟩
    have hst : (getCurrentApiKeyEng st0).2 = st := congrArg Prod.snd hg
    have hk0 : (getCurrentApiKeyEng st0).1 = k0 := congrArg Prod.fst hg
    obtain ⟨h1, h2, h3⟩ := gck_spec st0
    rw [hst] at h1 h2
    rcases k0 with _ | kid
    · simp only []
      intro ev hev
      rw [h1, h] at hev
      cases hev
    · simp only []
      have hact : keyIsActive (setCursorEng st kid).reg kid = true := by
        rw [setCursor_reg, h2]
        exact h3 kid (by rw [hk0])
      obtain ⟨δ, hδ, hP, hc, hcard, hmem⟩ := keyLoop_spec env 10 (setCursorEng st kid) kid none hact
      intro ev hev
      rw [hδ, setCursor_trace, h1, h] at hev
      simp only [List.nil_append] at hev
      exact hP ev hev
  · simp only []
    intro ev hev
    rw [h] at hev
    cases hev

/-- C4: over one whole request, the engine makes at most 4 upstream chat
attempts with any one credential (the initial attempt plus
MAX_RETRIES = 3 retries) and dispatches with at most 10 distinct
credentials (maxKeyAttempts = 10). -/
theorem forward_bounded_attempts (env : Env) (st0 : EngSt) (h : st0.trace = []) :
    (∀ k, (dispatches (forward env st0).2.trace).count k ≤ 4)
    ∧ (dispatches (forward env st0).2.trace).toFinset.card ≤ 10 := by
  unfold forward
  rcases isIpBlocked st0.blacklist env.now with _ | b
  · simp only []
    rcases hg : getCurrentApiKeyEng st0 with ⟨k0, st⟩
    have hst : (getCurrentApiKeyEng st0).2 = st := congrArg Prod.snd hg
    have hk0 : (getCurrentApiKeyEng st0).1 = k0 := congrArg Prod.fst hg
    obtain ⟨h1, h2, h3⟩ := gck_spec st0
    rw [hst] at h1 h2
    rcases k0 with _ | kid
    · simp only []
      rw [h1, h]
      exact ⟨fun k => by simp [dispatches], by simp [dispatches]⟩
    · simp only []
      have hact : keyIsActive (setCursorEng st kid).reg kid = true := by
        rw [setCursor_reg, h2]
        exact h3 kid (by rw [hk0])
      obtain ⟨δ, hδ, hP, hc, hcard, hmem⟩ := keyLoop_spec env 10 (setCursorEng st kid) kid none hact
      rw [hδ, setCursor_trace, h1, h]
      simp only [List.nil_append]
      exact ⟨hc, hcard⟩
  · simp only []
    rw [h]
    exact ⟨fun k => by simp [dispatches], by simp [dispatches]⟩

def c8Env : Env :=
  { now := 1000000, proxyEnabled := false, proxyConfigs := [],
    autoQueryThreshold := 0,
    chatOracle := fun _ => .fail { response := some { status := 500, data := some (.jstr "boom") } },
    proxyOracle := fun _ => false,
    probeOracle := fun _ => { success := true, balance := some 10 },
    discSchedule := fun n => decide (4 ≤ n) }

/-- C8 witness: under an environment whose upstream fails and whose
client disconnects at the fifth poll, the run stops after the one guarded
dispatch: the trace is nonempty and every recorded action carries a
`false` disconnect tag. -/
theorem forward_no_work_after_disconnect_witness :
    demoSt.trace = []
    ∧ (⟨.chatDispatch 1 none, false⟩ : Event) ∈ (forward c8Env demoSt).2.trace
    ∧ (⟨.chatDispatch 1 none, false⟩ : Event).disc = false := by
  refine ⟨rfl, ?_, ?_⟩
  · rw [show (forward c8Env demoSt).2.trace
      = [(⟨.chatDispatch 1 none, false⟩ : Event)] from rfl]
    exact List.mem_singleton_self _
  · refine forward_no_work_after_disconnect c8Env demoSt rfl _ ?_
    rw [show (forward c8Env demoSt).2.trace
      = [(⟨.chatDispatch 1 none, false⟩ : Event)] from rfl]
    exact List.mem_singleton_self _

/-- C4 witness: on the healthy one-credential fixture the request makes
exactly one dispatch with credential 1, within both bounds. -/
theorem forward_bounded_attempts_witness :
    demoSt.trace = []
    ∧ (dispatches (forward demoEnv demoSt).2.trace).count 1 ≤ 4
    ∧ (dispatches (forward demoEnv demoSt).2.trace).toFinset.card ≤ 10 :=
  ⟨rfl, (forward_bounded_attempts demoEnv demoSt rfl).1 1,
    (forward_bounded_attempts demoEnv demoSt rfl).2⟩
